import Mathlib

/-!
# Right-button emulation for touchscreens

A shallow embedding of `src/emuRightTouch.c` (press-and-hold on button 1 is
turned into a press of a configurable target button) together with the
properties of its state machine.

Conventions of the embedding.

* The per-device `struct emulateRCT` is passed explicitly; every operation
  returns the new record and the list of events it handed to
  `xf86PostButtonEventP`, in posting order.
* C `int` arithmetic is performed on `Int` and wrapped to 32 bits by
  `wrapInt32`.  Signed overflow is undefined in C; theorems that depend on
  the arithmetic assume that the computed values are representable.
* The header `evdev.h` and the X server are not part of the sources.  What is
  taken from them (flag bits, timer primitives, the valuator mask) is marked
  as such at its definition.
-/

namespace EmuRightTouch

/-! ## Machine integers -/

/-- Value stored by a C `int` computation: two's-complement wrap to 32 bits. -/
def wrapInt32 (z : Int) : Int :=
  (z + 2147483648) % 4294967296 - 2147483648

/-- The C library function `abs` on `int` (negation wraps like any `int` result). -/
def c_abs (z : Int) : Int :=
  if z < 0 then wrapInt32 (-z) else z

/-! ## Data model -/

/-- The `enum EmulationState` of the source. -/
inductive EmulationState where
  | EMRCT_OFF
  | EMRCT_PENDING
  | EMRCT_EMULATING
  deriving DecidableEq

/-- The `enum ButtonAction` used by `EvdevRCTEmuPostButtonEvent`. -/
inductive ButtonAction where
  | BUTTON_RELEASE
  | BUTTON_PRESS
  deriving DecidableEq

/-- Modelled from the spec: the single one-shot timer slot (`OsTimerPtr`) of the
server, which is not part of the sources.  `null` is the freed or unallocated
handle, `idle` an allocated slot with no deadline, `armed ms` a slot whose
callback is due in `ms` milliseconds. -/
inductive OsTimer where
  | null
  | idle
  | armed (millis : Nat)
  deriving DecidableEq

/-- Modelled from the spec: `armTimer(existingHandle, delayMs, callback)`, the
server's `TimerSet`.  Arming replaces any previous deadline; a zero delay only
allocates the slot (this is how `EvdevRCTEmuPreInit` uses it). -/
def TimerSet (_timer : OsTimer) (millis : Nat) : OsTimer :=
  if millis = 0 then OsTimer.idle else OsTimer.armed millis

/-- Modelled from the spec: `cancelTimer(handle)`, the server's `TimerCancel`;
safe to call when no timer is armed. -/
def TimerCancel (timer : OsTimer) : OsTimer :=
  match timer with
  | OsTimer.null => OsTimer.null
  | _ => OsTimer.idle

/-- Modelled from the spec: `freeTimer(handle)`, the server's `TimerFree`
followed by the assignment of `NULL` in `EvdevRCTEmuFinalize`. -/
def TimerFree (_timer : OsTimer) : OsTimer :=
  OsTimer.null

/-- Whether the timer slot currently has a deadline. -/
def OsTimer.isArmed (timer : OsTimer) : Bool :=
  match timer with
  | OsTimer.armed _ => true
  | _ => false

/-- Modelled from the spec: coordinateMode Relative; the flag bit
`EVDEV_RELATIVE_EVENTS` of `evdev.h` (bit 2 in xf86-input-evdev). -/
def EVDEV_RELATIVE_EVENTS : Nat := 4

/-- Modelled from the spec: coordinateMode Absolute; the flag bit
`EVDEV_ABSOLUTE_EVENTS` of `evdev.h` (bit 3 in xf86-input-evdev). -/
def EVDEV_ABSOLUTE_EVENTS : Nat := 8

/-- Modelled from the spec: the X input constant `Relative` (posting mode without
position). -/
def Relative : Nat := 0

/-- Modelled from the spec: the X input constant `Absolute` (posting mode with
position). -/
def Absolute : Nat := 1

/-- The `struct emulateRCT` of `evdev.h`, with the fields the source uses:
`enabled`, `state`, `timeout`, `button` (the target button), `threshold`,
`timer`, `delta[2]`, `startpos[2]` and `flags`. -/
structure emulateRCT where
  enabled : Nat
  state : EmulationState
  timeout : Nat
  button : Int
  threshold : Int
  timer : OsTimer
  delta : Int × Int
  startpos : Int × Int
  flags : Nat
  deriving DecidableEq

/-- Element `axis` of a two-element `int` array such as `startpos`. -/
def axisOf (p : Int × Int) (axis : Nat) : Int :=
  if axis = 0 then p.1 else p.2

/-- Arguments of one call of `xf86PostButtonEventP`: posting mode, button,
`is_down`, first valuator, number of valuators and the valuators read. -/
structure ButtonEventP where
  is_absolute : Nat
  button : Int
  is_down : Nat
  first_valuator : Nat
  num_valuators : Nat
  valuators : List Int
  deriving DecidableEq

/-- Modelled from the spec: `axisValues`, the server's `ValuatorMask`; axis `i`
is either absent or carries an integer value. -/
abbrev ValuatorMask := Nat → Option Int

/-- Modelled from the spec: whether axis `axis` is present in the sample. -/
def valuator_mask_isset (vals : ValuatorMask) (axis : Nat) : Bool :=
  (vals axis).isSome

/-- Modelled from the spec: the value of axis `axis` in the sample. -/
def valuator_mask_get (vals : ValuatorMask) (axis : Nat) : Int :=
  (vals axis).getD 0

/-! ## Operations of the source -/

/-- The event `EvdevRCTEmuPostButtonEvent` posts: absolute mode with the two
start coordinates when the absolute flag is set, relative mode with no
valuator otherwise. -/
def EvdevRCTEmuPostButtonEvent (emuRCT : emulateRCT) (button : Int)
    (act : ButtonAction) : ButtonEventP :=
  let absolute := if emuRCT.flags &&& EVDEV_ABSOLUTE_EVENTS ≠ 0 then Absolute else Relative
  { is_absolute := absolute
    button := button
    is_down := if act = ButtonAction.BUTTON_PRESS then 1 else 0
    first_valuator := 0
    num_valuators := if absolute ≠ 0 then 2 else 0
    valuators := [emuRCT.startpos.1, emuRCT.startpos.2].take (if absolute ≠ 0 then 2 else 0) }

/-- The timer callback `EvdevRCTEmuTimer`: sets the state to emulating and posts
a press of the target button.  Blocking and unblocking the input signal around
the two statements does not change their sequential result. -/
def EvdevRCTEmuTimer (emuRCT : emulateRCT) : emulateRCT × List ButtonEventP :=
  let emuRCT1 := { emuRCT with state := EmulationState.EMRCT_EMULATING }
  (emuRCT1, [EvdevRCTEmuPostButtonEvent emuRCT1 emuRCT1.button ButtonAction.BUTTON_PRESS])

/-- The function `EvdevRCTCancel`: cancel all emulation, reset the timer and the
deltas. -/
def EvdevRCTCancel (emuRCT : emulateRCT) : emulateRCT :=
  let emuRCT1 :=
    if emuRCT.state ≠ EmulationState.EMRCT_OFF then
      { emuRCT with
        timer := TimerCancel emuRCT.timer
        state := EmulationState.EMRCT_OFF
        delta := (0, 0) }
    else emuRCT
  { emuRCT1 with flags := 0 }

/-- The function `EvdevRCTEmuFilterEvent`: the returned triple is the `BOOL`
result (`true` when the event was swallowed), the new record and the events
posted during the call. -/
def EvdevRCTEmuFilterEvent (emuRCT : emulateRCT) (button : Int) (press : Bool) :
    Bool × emulateRCT × List ButtonEventP :=
  if emuRCT.enabled = 0 then (false, emuRCT, [])
  else if button ≠ 1 then
    match emuRCT.state with
    | EmulationState.EMRCT_PENDING =>
      (false, EvdevRCTCancel emuRCT,
        [EvdevRCTEmuPostButtonEvent emuRCT 1 ButtonAction.BUTTON_PRESS])
    | EmulationState.EMRCT_EMULATING =>
      (false, EvdevRCTCancel emuRCT,
        [EvdevRCTEmuPostButtonEvent emuRCT emuRCT.button ButtonAction.BUTTON_RELEASE])
    | EmulationState.EMRCT_OFF => (false, emuRCT, [])
  else if press = false then
    match emuRCT.state with
    | EmulationState.EMRCT_PENDING =>
      (false, EvdevRCTCancel emuRCT,
        [EvdevRCTEmuPostButtonEvent emuRCT 1 ButtonAction.BUTTON_PRESS])
    | EmulationState.EMRCT_EMULATING =>
      (true, EvdevRCTCancel emuRCT,
        [EvdevRCTEmuPostButtonEvent emuRCT emuRCT.button ButtonAction.BUTTON_RELEASE])
    | EmulationState.EMRCT_OFF => (false, emuRCT, [])
  else if press = true ∧ emuRCT.state = EmulationState.EMRCT_OFF then
    (true,
      { emuRCT with
        state := EmulationState.EMRCT_PENDING
        timer := TimerSet emuRCT.timer emuRCT.timeout },
      [])
  else (false, emuRCT, [])

/-- The loop `while (axis <= 1 && !cancel)` of `EvdevRCTEmuProcessAbsMotion`;
`fuel` bounds the number of iterations (two are ever taken). -/
def absMotionLoop (emuRCT : emulateRCT) (vals : ValuatorMask) :
    Nat → Nat → Bool → Bool
  | 0, _, cancel => cancel
  | fuel + 1, axis, cancel =>
    if axis ≤ 1 ∧ cancel = false then
      let cancel1 :=
        if valuator_mask_isset vals axis then
          let delta := wrapInt32 (valuator_mask_get vals axis - axisOf emuRCT.startpos axis)
          if c_abs delta > emuRCT.threshold then true else cancel
        else cancel
      absMotionLoop emuRCT vals fuel (axis + 1) cancel1
    else cancel

/-- The function `EvdevRCTEmuProcessAbsMotion`. -/
def EvdevRCTEmuProcessAbsMotion (emuRCT : emulateRCT) (vals : ValuatorMask) :
    emulateRCT × List ButtonEventP :=
  if emuRCT.state ≠ EmulationState.EMRCT_PENDING then
    let emuRCT1 :=
      if valuator_mask_isset vals 0 then
        { emuRCT with startpos := (valuator_mask_get vals 0, emuRCT.startpos.2) }
      else emuRCT
    let emuRCT2 :=
      if valuator_mask_isset vals 1 then
        { emuRCT1 with startpos := (emuRCT1.startpos.1, valuator_mask_get vals 1) }
      else emuRCT1
    (emuRCT2, [])
  else
    let emuRCT1 :=
      if emuRCT.flags &&& EVDEV_ABSOLUTE_EVENTS = 0 then
        { emuRCT with flags := emuRCT.flags ||| EVDEV_ABSOLUTE_EVENTS }
      else emuRCT
    if absMotionLoop emuRCT1 vals 3 0 false then
      (EvdevRCTCancel emuRCT1,
        [EvdevRCTEmuPostButtonEvent emuRCT1 1 ButtonAction.BUTTON_PRESS])
    else (emuRCT1, [])

/-- The function `EvdevRCTEmuProcessRelMotion`. -/
def EvdevRCTEmuProcessRelMotion (emuRCT : emulateRCT) (dx dy : Int) :
    emulateRCT × List ButtonEventP :=
  if emuRCT.state ≠ EmulationState.EMRCT_PENDING then (emuRCT, [])
  else
    let emuRCT1 :=
      { emuRCT with
        delta := (wrapInt32 (emuRCT.delta.1 + dx), wrapInt32 (emuRCT.delta.2 + dy))
        flags := emuRCT.flags ||| EVDEV_RELATIVE_EVENTS }
    if c_abs emuRCT1.delta.1 > emuRCT1.threshold ∨ c_abs emuRCT1.delta.2 > emuRCT1.threshold then
      (EvdevRCTCancel emuRCT1,
        [EvdevRCTEmuPostButtonEvent emuRCT1 1 ButtonAction.BUTTON_PRESS])
    else (emuRCT1, [])

/-- The function `EvdevRCTEmuPreInit`: the four values returned by the option
reader (their defaults are off, 1000, 3 and 20) are stored and the timer slot is
allocated without a deadline. -/
def EvdevRCTEmuPreInit (emuRCT : emulateRCT) (optEnabled : Bool) (optTimeout : Nat)
    (optButton optThreshold : Int) : emulateRCT :=
  { emuRCT with
    enabled := if optEnabled then 1 else 0
    timeout := optTimeout
    button := optButton
    threshold := optThreshold
    timer := TimerSet OsTimer.null 0 }

/-- The function `EvdevRCTEmuFinalize`: the timer is freed and the handle cleared. -/
def EvdevRCTEmuFinalize (emuRCT : emulateRCT) : emulateRCT :=
  { emuRCT with timer := TimerFree emuRCT.timer }

/-! ## The event pipeline around the module -/

/-- One element of the downstream button stream: an event posted by the module,
or a raw button event that the filter did not consume. -/
inductive Downstream where
  | posted (e : ButtonEventP)
  | raw (button : Int) (press : Bool)
  deriving DecidableEq

/-- Button number of a downstream event. -/
def Downstream.button : Downstream → Int
  | Downstream.posted e => e.button
  | Downstream.raw b _ => b

/-- Whether a downstream event is a press (`is_down` non-zero) or a release. -/
def Downstream.isPress : Downstream → Bool
  | Downstream.posted e => decide (e.is_down ≠ 0)
  | Downstream.raw _ p => p

/-- Modelled from the spec: the caller of the filter in the event pipeline
(`evdev.c`, not among the sources).  The events posted by the module during the
call reach downstream first; the raw event follows unless the filter returned
`TRUE`. -/
def filterDownstream (emuRCT : emulateRCT) (button : Int) (press : Bool) :
    emulateRCT × List Downstream :=
  let r := EvdevRCTEmuFilterEvent emuRCT button press
  (r.2.1, r.2.2.map Downstream.posted ++ if r.1 then [] else [Downstream.raw button press])

/-- Modelled from the spec: a firing of the one-shot timer.  The server takes
the deadline off the slot and then runs the callback; without a deadline
nothing fires. -/
def timerExpire (emuRCT : emulateRCT) : emulateRCT × List ButtonEventP :=
  if emuRCT.timer.isArmed then EvdevRCTEmuTimer { emuRCT with timer := OsTimer.idle }
  else (emuRCT, [])

/-- The three event sources of the module: raw button events, absolute and
relative motion samples, and the timer. -/
inductive Event where
  | button (button : Int) (press : Bool)
  | absMotion (vals : ValuatorMask)
  | relMotion (dx dy : Int)
  | timer

/-- Modelled from the spec: delivery of one event to the module, with the
downstream events it produces in arrival order. -/
def step (emuRCT : emulateRCT) : Event → emulateRCT × List Downstream
  | Event.button b p => filterDownstream emuRCT b p
  | Event.absMotion vals =>
    ((EvdevRCTEmuProcessAbsMotion emuRCT vals).1,
      (EvdevRCTEmuProcessAbsMotion emuRCT vals).2.map Downstream.posted)
  | Event.relMotion dx dy =>
    ((EvdevRCTEmuProcessRelMotion emuRCT dx dy).1,
      (EvdevRCTEmuProcessRelMotion emuRCT dx dy).2.map Downstream.posted)
  | Event.timer => ((timerExpire emuRCT).1, (timerExpire emuRCT).2.map Downstream.posted)

/-- Delivery of a sequence of events, in arrival order. -/
def run (emuRCT : emulateRCT) : List Event → emulateRCT × List Downstream
  | [] => (emuRCT, [])
  | e :: es => ((run (step emuRCT e).1 es).1, (step emuRCT e).2 ++ (run (step emuRCT e).1 es).2)

/-- Button state after a downstream event: `down b` tells whether button `b` is
down downstream. -/
def downAfter (down : Int → Bool) (d : Downstream) : Int → Bool :=
  fun b => if b = d.button then d.isPress else down b

/-- A downstream stream has no duplicate or missing press or release: no button
is pressed while it is down and none is released while it is not down. -/
def coherentFrom (down : Int → Bool) : List Downstream → Bool
  | [] => true
  | d :: ds => (down d.button != d.isPress) && coherentFrom (downAfter down d) ds

/-- State of the physical buttons after a raw event. -/
def physAfter (phys : Int → Bool) : Event → Int → Bool
  | Event.button b p => fun x => if x = b then p else phys x
  | _ => phys

/-- Whether event `e` may arrive next: a raw press only of a button that is not
held, a raw release only of a button that is held (`phys` tells which buttons
are held), and a timer firing only while the timer is armed. -/
def sequencedAt (emuRCT : emulateRCT) (phys : Int → Bool) : Event → Bool
  | Event.button b p => phys b != p
  | Event.timer => emuRCT.timer.isArmed
  | _ => true

/-- The raw press and release events of each physical button alternate and the
timer fires only while it is armed, along the whole sequence. -/
def wellSequenced (emuRCT : emulateRCT) (phys : Int → Bool) : List Event → Bool
  | [] => true
  | e :: es =>
    sequencedAt emuRCT phys e && wellSequenced (step emuRCT e).1 (physAfter phys e) es

/-- A raw event of a button other than 1 does not arrive while the state is
emulating, and the timer does not fire while a target button other than button 1
is held (`phys` tells which buttons are held). -/
def foreignFreeAt (emuRCT : emulateRCT) (phys : Int → Bool) : Event → Bool
  | Event.button b _ =>
    decide (b = 1) || decide (emuRCT.state ≠ EmulationState.EMRCT_EMULATING)
  | Event.timer => decide (emuRCT.button = 1) || !(phys emuRCT.button)
  | _ => true

/-- Along the whole sequence, no raw event of a button other than 1 arrives while
the state is emulating and the timer does not fire while a target button other
than button 1 is held. -/
def noForeignWhileEmulating (emuRCT : emulateRCT) (phys : Int → Bool) : List Event → Bool
  | [] => true
  | e :: es =>
    foreignFreeAt emuRCT phys e
      && noForeignWhileEmulating (step emuRCT e).1 (physAfter phys e) es

/-- The downstream button state that matches the module's state: the target
button is down exactly while emulating, button 1 is down when it is held and no
episode is in flight, every other button is down when it is held. -/
def expectedDown (emuRCT : emulateRCT) (phys : Int → Bool) : Int → Bool :=
  fun b =>
    if b = emuRCT.button ∧ emuRCT.state = EmulationState.EMRCT_EMULATING then true
    else if b = 1 then decide (emuRCT.state = EmulationState.EMRCT_OFF) && phys 1
    else phys b

/-- Invariant of the pipeline: emulation is enabled, button 1 is held during an
episode, the timer is armed only in state Pending, and while emulating a target
button other than button 1 is not held. -/
def PipelineInv (emuRCT : emulateRCT) (phys : Int → Bool) : Prop :=
  emuRCT.enabled ≠ 0
    ∧ (emuRCT.state ≠ EmulationState.EMRCT_OFF → phys 1 = true)
    ∧ (emuRCT.timer.isArmed = true → emuRCT.state = EmulationState.EMRCT_PENDING)
    ∧ (emuRCT.state = EmulationState.EMRCT_EMULATING → emuRCT.button ≠ 1 →
        phys emuRCT.button = false)

/-- The record after `EvdevRCTEmuPreInit` with the default options of the source
(timeout 1000, target button 3, threshold 20) on a zeroed device record, with
emulation switched on. -/
def defaultEnabled : emulateRCT :=
  EvdevRCTEmuPreInit
    { enabled := 0, state := EmulationState.EMRCT_OFF, timeout := 0, button := 0,
      threshold := 0, timer := OsTimer.null, delta := (0, 0), startpos := (0, 0), flags := 0 }
    true 1000 3 20

/-! ## Scenarios and measures used by the properties -/

/-- Number of presses of button `b` in a downstream stream. -/
def pressesOf (b : Int) (ds : List Downstream) : Nat :=
  (ds.filter (fun d => decide (d.button = b) && d.isPress)).length

/-- Delivery of a sequence of absolute motion samples to
`EvdevRCTEmuProcessAbsMotion`, collecting the posted events. -/
def absMotions (emuRCT : emulateRCT) : List ValuatorMask → emulateRCT × List ButtonEventP
  | [] => (emuRCT, [])
  | vals :: rest =>
    ((absMotions (EvdevRCTEmuProcessAbsMotion emuRCT vals).1 rest).1,
      (EvdevRCTEmuProcessAbsMotion emuRCT vals).2
        ++ (absMotions (EvdevRCTEmuProcessAbsMotion emuRCT vals).1 rest).2)

/-- Press of button 1, then absolute motion samples, then the timer callback:
the final record and everything the module posted. -/
def holdAbs (emuRCT : emulateRCT) (samples : List ValuatorMask) :
    emulateRCT × List ButtonEventP :=
  let r1 := EvdevRCTEmuFilterEvent emuRCT 1 true
  let r2 := absMotions r1.2.1 samples
  let r3 := EvdevRCTEmuTimer r2.1
  (r3.1, r1.2.2 ++ r2.2 ++ r3.2)

/-- An absolute sample with both axes present. -/
def sampleXY (x y : Int) : ValuatorMask :=
  fun axis => if axis = 0 then some x else if axis = 1 then some y else none

/-- The default configuration with the target button set to button 1. -/
def targetOne : emulateRCT :=
  { defaultEnabled with button := 1 }

/-- The default configuration while a press of button 1 is pending. -/
def pendingDefault : emulateRCT :=
  { defaultEnabled with state := EmulationState.EMRCT_PENDING, timer := OsTimer.armed 1000 }

/-- The test of the loop body of `EvdevRCTEmuProcessAbsMotion` for one axis: the
axis is present and `abs(delta) > threshold`. -/
def axisExceeds (emuRCT : emulateRCT) (vals : ValuatorMask) (axis : Nat) : Bool :=
  valuator_mask_isset vals axis &&
    decide (c_abs (wrapInt32 (valuator_mask_get vals axis - axisOf emuRCT.startpos axis))
      > emuRCT.threshold)

/-- The record `EvdevRCTEmuProcessAbsMotion` works on in state Pending, after the
absolute flag has been set. -/
def markAbsolute (emuRCT : emulateRCT) : emulateRCT :=
  if emuRCT.flags &&& EVDEV_ABSOLUTE_EVENTS = 0 then
    { emuRCT with flags := emuRCT.flags ||| EVDEV_ABSOLUTE_EVENTS }
  else emuRCT

/-! ## The property bridge -/

/-- Modelled from the spec: the predefined atom `XA_INTEGER` of `Xatom.h`, the type
"integer" of a property value. -/
def XA_INTEGER : Nat := 19

/-- Modelled from the spec: the status `Success` of the X protocol. -/
def Success : Int := 0

/-- Modelled from the spec: the status `BadMatch` of the X protocol, which the
source returns for a value of the wrong format, size or type. -/
def BadMatch : Int := 8

/-- Modelled from the spec: the server's `XIPropertyValue`: the type atom, the
format (bits per item), the size (number of items) and the items of `data`, each
an unsigned number of `format` bits. -/
structure XIPropertyValue where
  type : Nat
  format : Int
  size : Int
  data : List Nat

/-- The four file-level atoms of the source, which `EvdevRCTEmuInitProperty`
resolves from the four property names before it registers the handler. -/
structure PropAtoms where
  prop_rctemu : Nat
  prop_rcttimeout : Nat
  prop_rctbutton : Nat
  prop_rctthreshold : Nat

/-- The four atoms are pairwise different, as atoms made from four different names
are. -/
def PropAtoms.distinct (atoms : PropAtoms) : Prop :=
  atoms.prop_rctemu ≠ atoms.prop_rcttimeout ∧ atoms.prop_rctemu ≠ atoms.prop_rctbutton
    ∧ atoms.prop_rctemu ≠ atoms.prop_rctthreshold
    ∧ atoms.prop_rcttimeout ≠ atoms.prop_rctbutton
    ∧ atoms.prop_rcttimeout ≠ atoms.prop_rctthreshold
    ∧ atoms.prop_rctbutton ≠ atoms.prop_rctthreshold

/-- The read `*((CARD8*)val->data)` (also used through the 8-bit type `BOOL`): the
first item of the data as an unsigned 8-bit number. -/
def readCARD8 (val : XIPropertyValue) : Nat :=
  val.data.headD 0 % 256

/-- The read `*((CARD32*)val->data)`: the first item of the data as an unsigned
32-bit number. -/
def readCARD32 (val : XIPropertyValue) : Nat :=
  val.data.headD 0 % 4294967296

/-- The function `EvdevRCTEmuSetProperty`: the returned pair is the status and the
new record.  The `CARD32` read for the threshold is stored in an `int` field. -/
def EvdevRCTEmuSetProperty (atoms : PropAtoms) (emuRCT : emulateRCT) (atom : Nat)
    (val : XIPropertyValue) (checkonly : Bool) : Int × emulateRCT :=
  if atom = atoms.prop_rctemu then
    if val.format ≠ 8 ∨ val.size ≠ 1 ∨ val.type ≠ XA_INTEGER then (BadMatch, emuRCT)
    else if checkonly = false then (Success, { emuRCT with enabled := readCARD8 val })
    else (Success, emuRCT)
  else if atom = atoms.prop_rcttimeout then
    if val.format ≠ 32 ∨ val.size ≠ 1 ∨ val.type ≠ XA_INTEGER then (BadMatch, emuRCT)
    else if checkonly = false then (Success, { emuRCT with timeout := readCARD32 val })
    else (Success, emuRCT)
  else if atom = atoms.prop_rctbutton then
    if val.format ≠ 8 ∨ val.size ≠ 1 ∨ val.type ≠ XA_INTEGER then (BadMatch, emuRCT)
    else if checkonly = false then (Success, { emuRCT with button := (readCARD8 val : Int) })
    else (Success, emuRCT)
  else if atom = atoms.prop_rctthreshold then
    if val.format ≠ 32 ∨ val.size ≠ 1 ∨ val.type ≠ XA_INTEGER then (BadMatch, emuRCT)
    else if checkonly = false then
      (Success, { emuRCT with threshold := wrapInt32 (readCARD32 val : Int) })
    else (Success, emuRCT)
  else (Success, emuRCT)

/-- A property value of type integer with one item `v` of the given format. -/
def integerValue (format : Int) (v : Nat) : XIPropertyValue :=
  { type := XA_INTEGER, format := format, size := 1, data := [v] }

/-- Four different atoms, for concrete property writes. -/
def sampleAtoms : PropAtoms :=
  { prop_rctemu := 301, prop_rcttimeout := 302, prop_rctbutton := 303, prop_rctthreshold := 304 }

/-- Everything that can happen to the device record: an event of the pipeline or
a call of the property handler. -/
inductive Action where
  | event (e : Event)
  | setProperty (atom : Nat) (val : XIPropertyValue) (checkonly : Bool)

/-- The record after one action. -/
def act (atoms : PropAtoms) (emuRCT : emulateRCT) : Action → emulateRCT
  | Action.event e => (step emuRCT e).1
  | Action.setProperty atom val checkonly =>
    (EvdevRCTEmuSetProperty atoms emuRCT atom val checkonly).2

/-- The record after a sequence of actions, in arrival order. -/
def actAll (atoms : PropAtoms) (emuRCT : emulateRCT) : List Action → emulateRCT
  | [] => emuRCT
  | a :: rest => actAll atoms (act atoms emuRCT a) rest

/-- Whether an event is a motion sample. -/
def Event.isMotion : Event → Bool
  | Event.absMotion _ => true
  | Event.relMotion _ _ => true
  | _ => false

/-- The posting mode `EvdevRCTEmuPostButtonEvent` would use for the record:
`Absolute` (with the start position) or `Relative` (without position). -/
def postingMode (emuRCT : emulateRCT) : Nat :=
  (EvdevRCTEmuPostButtonEvent emuRCT 1 ButtonAction.BUTTON_PRESS).is_absolute

/-- The default configuration with a timeout of zero. -/
def zeroTimeout : emulateRCT :=
  { defaultEnabled with timeout := 0 }

/-! # Properties -/

/-! ## Machine integers and flag bits -/

theorem wrapInt32_of_representable (z : Int) (h1 : -2147483648 ≤ z) (h2 : z < 2147483648) :
    wrapInt32 z = z := by
  unfold wrapInt32; omega

theorem wrapInt32_range (z : Int) : -2147483648 ≤ wrapInt32 z ∧ wrapInt32 z < 2147483648 := by
  unfold wrapInt32; omega

theorem c_abs_wrap_of_small (d : Int) (h : |d| < 2147483648) :
    c_abs (wrapInt32 d) = |d| := by
  have h2 := abs_lt.mp h
  rw [wrapInt32_of_representable d (by omega) (by omega)]
  unfold c_abs
  split
  · rw [wrapInt32_of_representable (-d) (by omega) (by omega), abs_of_neg (by assumption)]
  · rw [abs_of_nonneg (by omega)]

theorem c_abs_wrap_le (d : Int) : c_abs (wrapInt32 d) ≤ |d| := by
  have hr := wrapInt32_range d
  have ha : c_abs (wrapInt32 d) < 2147483648 := by
    unfold c_abs
    split
    · have := wrapInt32_range (-wrapInt32 d); omega
    · omega
  by_cases hs : |d| < 2147483648
  · rw [c_abs_wrap_of_small d hs]
  · omega

theorem flags_abs_set (f : Nat) :
    (f ||| EVDEV_ABSOLUTE_EVENTS) &&& EVDEV_ABSOLUTE_EVENTS ≠ 0 := by
  unfold EVDEV_ABSOLUTE_EVENTS
  intro h
  have h3 := congrArg (fun n => n.testBit 3) h
  have h8 : Nat.testBit 8 3 = true := by decide
  simp [h8] at h3

theorem flags_rel_keeps_abs (f : Nat) :
    (f ||| EVDEV_RELATIVE_EVENTS) &&& EVDEV_ABSOLUTE_EVENTS = f &&& EVDEV_ABSOLUTE_EVENTS := by
  unfold EVDEV_ABSOLUTE_EVENTS EVDEV_RELATIVE_EVENTS
  apply Nat.eq_of_testBit_eq
  intro i
  have h4 : (4 : Nat) = 2 ^ 2 := by norm_num
  have h8 : (8 : Nat) = 2 ^ 3 := by norm_num
  rw [Nat.testBit_and, Nat.testBit_and, Nat.testBit_or, h4, h8, Nat.testBit_two_pow,
    Nat.testBit_two_pow]
  by_cases h : 3 = i
  · subst h; simp
  · simp [h]

/-! ## Posting and cancelling -/

theorem post_absolute (s : emulateRCT) (button : Int) (act : ButtonAction)
    (h : s.flags &&& EVDEV_ABSOLUTE_EVENTS ≠ 0) :
    EvdevRCTEmuPostButtonEvent s button act =
      { is_absolute := Absolute, button := button,
        is_down := if act = ButtonAction.BUTTON_PRESS then 1 else 0,
        first_valuator := 0, num_valuators := 2,
        valuators := [s.startpos.1, s.startpos.2] } := by
  simp [EvdevRCTEmuPostButtonEvent, h, Absolute]

theorem post_relative (s : emulateRCT) (button : Int) (act : ButtonAction)
    (h : s.flags &&& EVDEV_ABSOLUTE_EVENTS = 0) :
    EvdevRCTEmuPostButtonEvent s button act =
      { is_absolute := Relative, button := button,
        is_down := if act = ButtonAction.BUTTON_PRESS then 1 else 0,
        first_valuator := 0, num_valuators := 0, valuators := [] } := by
  simp [EvdevRCTEmuPostButtonEvent, h, Relative]

theorem post_button (s : emulateRCT) (button : Int) (act : ButtonAction) :
    (EvdevRCTEmuPostButtonEvent s button act).button = button := rfl

theorem post_is_down_press (s : emulateRCT) (button : Int) :
    (EvdevRCTEmuPostButtonEvent s button ButtonAction.BUTTON_PRESS).is_down = 1 := rfl

theorem post_is_down_release (s : emulateRCT) (button : Int) :
    (EvdevRCTEmuPostButtonEvent s button ButtonAction.BUTTON_RELEASE).is_down = 0 := rfl

theorem timerCancel_not_armed (t : OsTimer) : (TimerCancel t).isArmed = false := by
  cases t <;> rfl

theorem cancel_state (s : emulateRCT) : (EvdevRCTCancel s).state = EmulationState.EMRCT_OFF := by
  unfold EvdevRCTCancel
  by_cases h : s.state = EmulationState.EMRCT_OFF <;> simp [h]

theorem cancel_of_active (s : emulateRCT) (h : s.state ≠ EmulationState.EMRCT_OFF) :
    EvdevRCTCancel s =
      { s with timer := TimerCancel s.timer, state := EmulationState.EMRCT_OFF,
               delta := (0, 0), flags := 0 } := by
  simp [EvdevRCTCancel, h]

/-! ## C1: a tap on button 1 -/

/-- C1 (as amended): with emulation enabled and state Idle, for every
configuration, press of button 1 immediately followed by release of button 1
yields the downstream stream consisting of exactly the replayed press of
button 1 followed by the raw release of button 1, and the final state is Idle;
the stream holds no press of the target button whenever the target button is
not button 1. -/
theorem tap_stream (s : emulateRCT) (hen : s.enabled ≠ 0)
    (hst : s.state = EmulationState.EMRCT_OFF) :
    (run s [Event.button 1 true, Event.button 1 false]).2
        = [Downstream.posted (EvdevRCTEmuPostButtonEvent s 1 ButtonAction.BUTTON_PRESS),
            Downstream.raw 1 false]
      ∧ (run s [Event.button 1 true, Event.button 1 false]).2.map
          (fun d => (d.button, d.isPress)) = [(1, true), (1, false)]
      ∧ (run s [Event.button 1 true, Event.button 1 false]).1.state = EmulationState.EMRCT_OFF
      ∧ (s.button ≠ 1 →
          pressesOf s.button (run s [Event.button 1 true, Event.button 1 false]).2 = 0) := by
  simp [run, step, filterDownstream, EvdevRCTEmuFilterEvent, hen, hst, EvdevRCTCancel,
    EvdevRCTEmuPostButtonEvent, Downstream.button, Downstream.isPress, pressesOf]
  exact fun h h1 => h h1.symm

/-- C1 (witness): the tap on the default configuration with emulation enabled. -/
theorem tap_stream_witness :
    (run defaultEnabled [Event.button 1 true, Event.button 1 false]).2.map
        (fun d => (d.button, d.isPress)) = [(1, true), (1, false)]
      ∧ pressesOf defaultEnabled.button
          (run defaultEnabled [Event.button 1 true, Event.button 1 false]).2 = 0 :=
  ⟨(tap_stream defaultEnabled (by decide) (by decide)).2.1,
    (tap_stream defaultEnabled (by decide) (by decide)).2.2.2 (by decide)⟩

/-- C1 (counterexample): with the target button configured to button 1,
emulation enabled and state Idle, the tap yields a stream with one press of the
target button, not zero. -/
theorem tap_target_one_has_target_press :
    targetOne.enabled ≠ 0 ∧ targetOne.state = EmulationState.EMRCT_OFF
      ∧ pressesOf targetOne.button
          (run targetOne [Event.button 1 true, Event.button 1 false]).2 = 1 := by
  decide

/-! ## Absolute motion while a press is pending -/

theorem absMotionLoop_eq (s : emulateRCT) (vals : ValuatorMask) :
    absMotionLoop s vals 3 0 false = (axisExceeds s vals 0 || axisExceeds s vals 1) := by
  simp only [absMotionLoop, axisExceeds]
  by_cases h0 : valuator_mask_isset vals 0 = true <;>
  by_cases h1 : valuator_mask_isset vals 1 = true <;>
  by_cases c0 : c_abs (wrapInt32 (valuator_mask_get vals 0 - axisOf s.startpos 0)) > s.threshold <;>
  by_cases c1 : c_abs (wrapInt32 (valuator_mask_get vals 1 - axisOf s.startpos 1)) > s.threshold <;>
  simp [h0, h1, c0, c1]

theorem markAbsolute_flags (s : emulateRCT) :
    (markAbsolute s).flags &&& EVDEV_ABSOLUTE_EVENTS ≠ 0 := by
  unfold markAbsolute
  by_cases h : s.flags &&& EVDEV_ABSOLUTE_EVENTS = 0
  · simp only [h, if_true]; exact flags_abs_set s.flags
  · simp only [h, if_false]; exact h

theorem markAbsolute_fields (s : emulateRCT) :
    (markAbsolute s).state = s.state ∧ (markAbsolute s).startpos = s.startpos
      ∧ (markAbsolute s).threshold = s.threshold ∧ (markAbsolute s).button = s.button
      ∧ (markAbsolute s).timer = s.timer ∧ (markAbsolute s).enabled = s.enabled
      ∧ (markAbsolute s).delta = s.delta ∧ (markAbsolute s).timeout = s.timeout := by
  unfold markAbsolute
  by_cases h : s.flags &&& EVDEV_ABSOLUTE_EVENTS = 0 <;> simp [h]

theorem axisExceeds_markAbsolute (s : emulateRCT) (vals : ValuatorMask) (axis : Nat) :
    axisExceeds (markAbsolute s) vals axis = axisExceeds s vals axis := by
  obtain ⟨_, h2, h3, _⟩ := markAbsolute_fields s
  simp [axisExceeds, h2, h3]

theorem absMotion_pending (s : emulateRCT) (vals : ValuatorMask)
    (hst : s.state = EmulationState.EMRCT_PENDING) :
    EvdevRCTEmuProcessAbsMotion s vals =
      if (axisExceeds s vals 0 || axisExceeds s vals 1) = true then
        (EvdevRCTCancel (markAbsolute s),
          [EvdevRCTEmuPostButtonEvent (markAbsolute s) 1 ButtonAction.BUTTON_PRESS])
      else (markAbsolute s, []) := by
  unfold EvdevRCTEmuProcessAbsMotion
  rw [if_neg (not_not.mpr hst)]
  rw [← axisExceeds_markAbsolute s vals 0, ← axisExceeds_markAbsolute s vals 1,
    ← absMotionLoop_eq]
  rfl

theorem axisExceeds_of_within (s : emulateRCT) (vals : ValuatorMask) (axis : Nat)
    (h : ∀ v, vals axis = some v → |v - axisOf s.startpos axis| ≤ s.threshold) :
    axisExceeds s vals axis = false := by
  unfold axisExceeds valuator_mask_isset valuator_mask_get
  cases hv : vals axis with
  | none => simp
  | some v =>
    have h1 := h v hv
    have h2 := c_abs_wrap_le (v - axisOf s.startpos axis)
    simp only [Option.isSome_some, Option.getD_some, Bool.true_and, decide_eq_false_iff_not,
      gt_iff_lt, not_lt]
    omega

theorem axisExceeds_of_exceeds (s : emulateRCT) (vals : ValuatorMask) (axis : Nat) (v : Int)
    (hv : vals axis = some v) (hrep : |v - axisOf s.startpos axis| < 2147483648)
    (h : |v - axisOf s.startpos axis| > s.threshold) :
    axisExceeds s vals axis = true := by
  unfold axisExceeds valuator_mask_isset valuator_mask_get
  simp only [hv, Option.isSome_some, Option.getD_some, Bool.true_and, decide_eq_true_eq]
  rw [c_abs_wrap_of_small _ hrep]
  exact h

theorem absMotions_within (samples : List ValuatorMask) :
    ∀ s : emulateRCT, s.state = EmulationState.EMRCT_PENDING →
      (∀ vals ∈ samples, ∀ axis, axis ≤ 1 → ∀ v, vals axis = some v →
        |v - axisOf s.startpos axis| ≤ s.threshold) →
      (absMotions s samples).2 = []
        ∧ (absMotions s samples).1.state = EmulationState.EMRCT_PENDING
        ∧ (absMotions s samples).1.startpos = s.startpos
        ∧ (absMotions s samples).1.button = s.button
        ∧ (absMotions s samples).1.timer = s.timer
        ∧ ((s.flags &&& EVDEV_ABSOLUTE_EVENTS ≠ 0 ∨ samples ≠ []) →
            (absMotions s samples).1.flags &&& EVDEV_ABSOLUTE_EVENTS ≠ 0) := by
  induction samples with
  | nil =>
    intro s hst _
    simp [absMotions, hst]
  | cons vals rest ih =>
    intro s hst hin
    have h0 := axisExceeds_of_within s vals 0 (hin vals (List.mem_cons_self _ _) 0 (by omega))
    have h1 := axisExceeds_of_within s vals 1 (hin vals (List.mem_cons_self _ _) 1 (by omega))
    have hstep : EvdevRCTEmuProcessAbsMotion s vals = (markAbsolute s, []) := by
      rw [absMotion_pending s vals hst]; simp [h0, h1]
    obtain ⟨f1, f2, f3, f4, f5, _⟩ := markAbsolute_fields s
    have ih1 := ih (markAbsolute s) (f1.trans hst) (by
      intro v hv axis ha x hx
      rw [f2, f3]
      exact hin v (List.mem_cons_of_mem _ hv) axis ha x hx)
    obtain ⟨i1, i2, i3, i4, i5, i6⟩ := ih1
    simp only [absMotions, hstep, List.nil_append]
    refine ⟨i1, i2, i3.trans f2, i4.trans f4, i5.trans f5, fun _ => ?_⟩
    exact i6 (Or.inl (markAbsolute_flags s))

/-! ## C2: hold without leaving the threshold -/

/-- C2 (as amended): with emulation enabled and state Idle, after a press of
button 1, then any sequence of absolute motion samples in which every present
axis value differs from the start position by at most the threshold, then the
timer callback, the module has posted exactly one event, a press of the target
button (in absolute mode at the start position as soon as one sample was
received), and the final state is Emulating; no press or release of button 1 is
posted whenever the target button is not button 1.  Unless the timeout is zero, the
timer armed by the press is still armed when the samples have been processed. -/
theorem hold_within_threshold (s : emulateRCT) (samples : List ValuatorMask)
    (hen : s.enabled ≠ 0) (hst : s.state = EmulationState.EMRCT_OFF)
    (hin : ∀ vals ∈ samples, ∀ axis, axis ≤ 1 → ∀ v, vals axis = some v →
      |v - axisOf s.startpos axis| ≤ s.threshold) :
    (holdAbs s samples).2.map (fun e => (e.button, e.is_down)) = [(s.button, 1)]
      ∧ (holdAbs s samples).1.state = EmulationState.EMRCT_EMULATING
      ∧ (samples ≠ [] →
          (holdAbs s samples).2 =
            [{ is_absolute := Absolute, button := s.button, is_down := 1, first_valuator := 0,
               num_valuators := 2, valuators := [s.startpos.1, s.startpos.2] }])
      ∧ (s.button ≠ 1 → ∀ e ∈ (holdAbs s samples).2, e.button ≠ 1)
      ∧ (s.timeout ≠ 0 →
          (absMotions (EvdevRCTEmuFilterEvent s 1 true).2.1 samples).1.timer
            = OsTimer.armed s.timeout) := by
  have hpress : EvdevRCTEmuFilterEvent s 1 true =
      (true, { s with state := EmulationState.EMRCT_PENDING,
                      timer := TimerSet s.timer s.timeout }, []) := by
    simp [EvdevRCTEmuFilterEvent, hen, hst]
  have hfacts := absMotions_within samples
    { s with state := EmulationState.EMRCT_PENDING, timer := TimerSet s.timer s.timeout }
    rfl hin
  simp only [holdAbs, hpress]
  generalize absMotions _ samples = r at hfacts ⊢
  obtain ⟨a1, _, a3, a4, a5, a6⟩ := hfacts
  dsimp only at a3 a4 a5 a6
  have hev : (EvdevRCTEmuTimer r.1).2 =
      [EvdevRCTEmuPostButtonEvent r.1 s.button ButtonAction.BUTTON_PRESS] := by
    rw [← a4]; rfl
  rw [a1, hev]
  refine ⟨by simp [post_button, post_is_down_press], rfl, ?_, ?_, ?_⟩
  · intro hne
    rw [post_absolute _ _ _ (a6 (Or.inr hne)), a3]
    simp
  · intro hb e he
    simp only [List.nil_append, List.mem_singleton] at he
    rw [he, post_button]
    exact hb
  · intro ht
    rw [a5]
    simp [TimerSet, ht]

/-- C2 (witness): threshold 20, timeout 1000, start position (100,100), one
sample (115,100), target button 3. -/
theorem hold_within_threshold_witness :
    (holdAbs { defaultEnabled with startpos := (100, 100) } [sampleXY 115 100]).2 =
        [{ is_absolute := Absolute, button := 3, is_down := 1, first_valuator := 0,
           num_valuators := 2, valuators := [100, 100] }]
      ∧ (holdAbs { defaultEnabled with startpos := (100, 100) } [sampleXY 115 100]).1.state
          = EmulationState.EMRCT_EMULATING :=
  have h := hold_within_threshold { defaultEnabled with startpos := (100, 100) }
    [sampleXY 115 100] (by decide) (by decide) (by
      intro vals hv axis ha v hx
      simp only [List.mem_singleton] at hv
      subst hv
      interval_cases axis <;> simp [sampleXY] at hx <;> subst hx <;> decide)
  ⟨h.2.2.1 (by simp), h.2.1⟩

/-- C2 (counterexample): with the target button configured to button 1
(threshold 20, start position (100,100), one sample (115,100) within the
threshold), the single event posted after the timer callback is a press of
button 1. -/
theorem hold_target_one_posts_press_one :
    targetOne.enabled ≠ 0 ∧ targetOne.state = EmulationState.EMRCT_OFF
      ∧ 0 ≤ targetOne.threshold
      ∧ (holdAbs { targetOne with startpos := (100, 100) } [sampleXY 115 100]).2 =
          [{ is_absolute := Absolute, button := 1, is_down := 1, first_valuator := 0,
             num_valuators := 2, valuators := [100, 100] }] := by
  decide

/-! ## C3: hold, timeout, release -/

/-- C3 (as amended): with emulation enabled and state Idle, press of button 1,
then the timer callback, then release of button 1: the posted events are exactly
a press of the target button followed by a release of the target button; both
raw events of button 1 are consumed (the filter returns `true`), so the
downstream stream consists of the two posted events only and the raw release of
button 1 does not reach downstream; when the target button is not button 1 no
event of button 1 at all reaches downstream; the final state is Idle. -/
theorem hold_then_release (s : emulateRCT) (hen : s.enabled ≠ 0)
    (hst : s.state = EmulationState.EMRCT_OFF) :
    (EvdevRCTEmuFilterEvent s 1 true).1 = true
      ∧ (EvdevRCTEmuFilterEvent
          (EvdevRCTEmuTimer (EvdevRCTEmuFilterEvent s 1 true).2.1).1 1 false).1 = true
      ∧ (EvdevRCTEmuFilterEvent s 1 true).2.2
          ++ (EvdevRCTEmuTimer (EvdevRCTEmuFilterEvent s 1 true).2.1).2
          ++ (EvdevRCTEmuFilterEvent
              (EvdevRCTEmuTimer (EvdevRCTEmuFilterEvent s 1 true).2.1).1 1 false).2.2
          = [EvdevRCTEmuPostButtonEvent s s.button ButtonAction.BUTTON_PRESS,
             EvdevRCTEmuPostButtonEvent s s.button ButtonAction.BUTTON_RELEASE]
      ∧ (filterDownstream s 1 true).2
          ++ (EvdevRCTEmuTimer (filterDownstream s 1 true).1).2.map Downstream.posted
          ++ (filterDownstream (EvdevRCTEmuTimer (filterDownstream s 1 true).1).1 1 false).2
          = [Downstream.posted (EvdevRCTEmuPostButtonEvent s s.button ButtonAction.BUTTON_PRESS),
             Downstream.posted
               (EvdevRCTEmuPostButtonEvent s s.button ButtonAction.BUTTON_RELEASE)]
      ∧ (s.button ≠ 1 →
          ∀ d ∈ (filterDownstream s 1 true).2
              ++ (EvdevRCTEmuTimer (filterDownstream s 1 true).1).2.map Downstream.posted
              ++ (filterDownstream (EvdevRCTEmuTimer (filterDownstream s 1 true).1).1 1 false).2,
            d.button ≠ 1)
      ∧ (EvdevRCTEmuFilterEvent
          (EvdevRCTEmuTimer (EvdevRCTEmuFilterEvent s 1 true).2.1).1 1 false).2.1.state
          = EmulationState.EMRCT_OFF := by
  simp [filterDownstream, EvdevRCTEmuFilterEvent, EvdevRCTEmuTimer, hen, hst, EvdevRCTCancel,
    EvdevRCTEmuPostButtonEvent, Downstream.button]

/-- C3 (witness): the default configuration with emulation enabled; the posted
events are press and release of button 3. -/
theorem hold_then_release_witness :
    (EvdevRCTEmuFilterEvent
        (EvdevRCTEmuTimer (EvdevRCTEmuFilterEvent defaultEnabled 1 true).2.1).1 1 false).1 = true
      ∧ (EvdevRCTEmuFilterEvent
          (EvdevRCTEmuTimer (EvdevRCTEmuFilterEvent defaultEnabled 1 true).2.1).1 1 false).2.1.state
          = EmulationState.EMRCT_OFF :=
  ⟨(hold_then_release defaultEnabled (by decide) (by decide)).2.1,
    (hold_then_release defaultEnabled (by decide) (by decide)).2.2.2.2.2⟩

/-- C3 (counterexample): with the target button configured to button 1,
emulation enabled and state Idle, press of button 1, then the timer callback,
then release of button 1: the raw release is consumed, and the downstream stream
is a press of button 1 followed by a release of button 1, so a release of
button 1 reaches downstream. -/
theorem hold_release_target_one_releases_one :
    targetOne.enabled ≠ 0 ∧ targetOne.state = EmulationState.EMRCT_OFF
      ∧ (EvdevRCTEmuFilterEvent
          (EvdevRCTEmuTimer (EvdevRCTEmuFilterEvent targetOne 1 true).2.1).1 1 false).1 = true
      ∧ ((filterDownstream targetOne 1 true).2
          ++ (EvdevRCTEmuTimer (filterDownstream targetOne 1 true).1).2.map Downstream.posted
          ++ (filterDownstream
                (EvdevRCTEmuTimer (filterDownstream targetOne 1 true).1).1 1 false).2).map
            (fun d => (d.button, d.isPress))
          = [(1, true), (1, false)] := by
  decide

/-! ## C4: absolute motion while a press is pending -/

/-- C4 (as amended): in state Pending, for every absolute motion sample given to
`EvdevRCTEmuProcessAbsMotion`: if some present axis value differs from the start
position by more than the threshold, that difference being representable as
`int` (less than 2147483648 in absolute value), exactly one press of button 1 is
posted, in absolute mode and carrying the start position, the state becomes Idle
and the timer is no longer armed, so that a timer firing has nothing to post,
the posted press is not one of the target button when the target button is not
button 1, and a later release of button 1 is not consumed and posts nothing; if
no present axis value differs by more than the threshold, nothing is posted and
the state stays Pending. -/
theorem abs_motion_while_pending (s : emulateRCT) (vals : ValuatorMask)
    (hst : s.state = EmulationState.EMRCT_PENDING) :
    ((∃ axis, axis ≤ 1 ∧ ∃ v, vals axis = some v ∧
          |v - axisOf s.startpos axis| > s.threshold ∧
          |v - axisOf s.startpos axis| < 2147483648) →
        (EvdevRCTEmuProcessAbsMotion s vals).2 =
            [{ is_absolute := Absolute, button := 1, is_down := 1, first_valuator := 0,
               num_valuators := 2, valuators := [s.startpos.1, s.startpos.2] }]
          ∧ (EvdevRCTEmuProcessAbsMotion s vals).1.state = EmulationState.EMRCT_OFF
          ∧ (EvdevRCTEmuProcessAbsMotion s vals).1.timer = TimerCancel s.timer
          ∧ (EvdevRCTEmuProcessAbsMotion s vals).1.timer.isArmed = false
          ∧ timerExpire (EvdevRCTEmuProcessAbsMotion s vals).1
              = ((EvdevRCTEmuProcessAbsMotion s vals).1, [])
          ∧ EvdevRCTEmuFilterEvent (EvdevRCTEmuProcessAbsMotion s vals).1 1 false
              = (false, (EvdevRCTEmuProcessAbsMotion s vals).1, [])
          ∧ (s.button ≠ 1 →
              ∀ e ∈ (EvdevRCTEmuProcessAbsMotion s vals).2, e.button ≠ s.button))
      ∧ ((∀ axis, axis ≤ 1 → ∀ v, vals axis = some v →
            |v - axisOf s.startpos axis| ≤ s.threshold) →
          (EvdevRCTEmuProcessAbsMotion s vals).2 = []
            ∧ (EvdevRCTEmuProcessAbsMotion s vals).1.state = EmulationState.EMRCT_PENDING) := by
  obtain ⟨f1, f2, _, _, f5, _⟩ := markAbsolute_fields s
  constructor
  · intro hex
    have hc : (axisExceeds s vals 0 || axisExceeds s vals 1) = true := by
      obtain ⟨axis, ha, v, hv, hgt, hrep⟩ := hex
      have hax := axisExceeds_of_exceeds s vals axis v hv hrep hgt
      interval_cases axis <;> simp [hax]
    have hne : (markAbsolute s).state ≠ EmulationState.EMRCT_OFF := by
      rw [f1, hst]; decide
    have hstep : EvdevRCTEmuProcessAbsMotion s vals =
        (EvdevRCTCancel (markAbsolute s),
          [EvdevRCTEmuPostButtonEvent (markAbsolute s) 1 ButtonAction.BUTTON_PRESS]) := by
      rw [absMotion_pending s vals hst, if_pos hc]
    have htimer : (EvdevRCTCancel (markAbsolute s)).timer = TimerCancel s.timer := by
      rw [cancel_of_active _ hne, ← f5]
    have hoff := cancel_state (markAbsolute s)
    rw [hstep]
    refine ⟨?_, hoff, htimer, ?_, ?_, ?_, ?_⟩
    · rw [post_absolute _ _ _ (markAbsolute_flags s), f2]; rfl
    · show (EvdevRCTCancel (markAbsolute s)).timer.isArmed = false
      rw [htimer]; exact timerCancel_not_armed _
    · show timerExpire (EvdevRCTCancel (markAbsolute s)) = _
      unfold timerExpire
      rw [htimer, timerCancel_not_armed]; simp
    · show EvdevRCTEmuFilterEvent (EvdevRCTCancel (markAbsolute s)) 1 false = _
      unfold EvdevRCTEmuFilterEvent
      rw [hoff]
      by_cases he : (EvdevRCTCancel (markAbsolute s)).enabled = 0 <;> simp [he]
    · intro hb e he
      simp only [List.mem_singleton] at he
      rw [he, post_button]
      exact Ne.symm hb
  · intro hin
    have h0 := axisExceeds_of_within s vals 0 (hin 0 (by omega))
    have h1 := axisExceeds_of_within s vals 1 (hin 1 (by omega))
    rw [absMotion_pending s vals hst]
    simp [h0, h1, f1, hst]

/-- C4 (witness): threshold 20, start position (100,100), state Pending; the
sample (121,100) exceeds the threshold by one on x and cancels with a press of
button 1 at (100,100); the sample (115,100) stays within the threshold and
leaves the state Pending. -/
theorem abs_motion_while_pending_witness :
    (EvdevRCTEmuProcessAbsMotion { pendingDefault with startpos := (100, 100) }
        (sampleXY 121 100)).2 =
      [{ is_absolute := Absolute, button := 1, is_down := 1, first_valuator := 0,
         num_valuators := 2, valuators := [100, 100] }]
      ∧ (EvdevRCTEmuProcessAbsMotion { pendingDefault with startpos := (100, 100) }
          (sampleXY 121 100)).1.state = EmulationState.EMRCT_OFF
      ∧ (EvdevRCTEmuProcessAbsMotion { pendingDefault with startpos := (100, 100) }
          (sampleXY 115 100)).2 = []
      ∧ (EvdevRCTEmuProcessAbsMotion { pendingDefault with startpos := (100, 100) }
          (sampleXY 115 100)).1.state = EmulationState.EMRCT_PENDING :=
  have h := (abs_motion_while_pending { pendingDefault with startpos := (100, 100) }
    (sampleXY 121 100) (by decide)).1
    ⟨0, by decide, 121, by decide, by decide, by decide⟩
  have k := (abs_motion_while_pending { pendingDefault with startpos := (100, 100) }
    (sampleXY 115 100) (by decide)).2
    (by
      intro axis ha v hx
      interval_cases axis <;> simp [sampleXY] at hx <;> subst hx <;> decide)
  ⟨h.1, h.2.1, k.1, k.2⟩

/-- C4 (counterexample): with the target button configured to button 1, state
Pending, threshold 20 and start position (100,100), the sample (121,100) exceeds
the threshold by one on x and cancels the episode; the press posted, at
(100,100), is a press of button 1, which is the target button: a press of the
target button is posted for this episode. -/
theorem abs_motion_target_one_posts_target_press :
    ({ targetOne with state := EmulationState.EMRCT_PENDING, timer := OsTimer.armed 1000,
                      startpos := (100, 100) } : emulateRCT).state
        = EmulationState.EMRCT_PENDING
      ∧ 0 ≤ targetOne.threshold
      ∧ |(121 : Int) - 100| > targetOne.threshold
      ∧ (EvdevRCTEmuProcessAbsMotion
          { targetOne with state := EmulationState.EMRCT_PENDING, timer := OsTimer.armed 1000,
                           startpos := (100, 100) }
          (sampleXY 121 100)).2 =
          [{ is_absolute := Absolute, button := targetOne.button, is_down := 1,
             first_valuator := 0, num_valuators := 2, valuators := [100, 100] }]
      ∧ targetOne.button = 1 := by
  decide

/-! ## C5: coherence of the downstream stream -/

theorem coherentFrom_append (l r : List Downstream) :
    ∀ down : Int → Bool, coherentFrom down (l ++ r) =
      (coherentFrom down l && coherentFrom (l.foldl downAfter down) r) := by
  induction l with
  | nil => intro down; simp [coherentFrom]
  | cons d ds ih => intro down; simp [coherentFrom, ih, Bool.and_assoc]

theorem cancel_fields (s : emulateRCT) :
    (EvdevRCTCancel s).button = s.button ∧ (EvdevRCTCancel s).enabled = s.enabled
      ∧ (s.state ≠ EmulationState.EMRCT_OFF → (EvdevRCTCancel s).timer.isArmed = false) := by
  unfold EvdevRCTCancel
  by_cases h : s.state = EmulationState.EMRCT_OFF <;> simp [h, timerCancel_not_armed]

/-- Outcome of a cancellation from Pending that replays the press of button 1:
the stream stays coherent and the invariant is kept. -/
theorem cancel_pending_ok (s s1 : emulateRCT) (phys : Int → Bool)
    (hinv : PipelineInv s phys) (hst : s.state = EmulationState.EMRCT_PENDING)
    (h1 : s1.state = s.state) (h2 : s1.button = s.button) (h3 : s1.enabled = s.enabled) :
    coherentFrom (expectedDown s phys)
        [Downstream.posted (EvdevRCTEmuPostButtonEvent s1 1 ButtonAction.BUTTON_PRESS)] = true
      ∧ [Downstream.posted (EvdevRCTEmuPostButtonEvent s1 1 ButtonAction.BUTTON_PRESS)].foldl
          downAfter (expectedDown s phys) = expectedDown (EvdevRCTCancel s1) phys
      ∧ PipelineInv (EvdevRCTCancel s1) phys := by
  obtain ⟨i1, i2, i3, i4⟩ := hinv
  obtain ⟨c1, c2, c3⟩ := cancel_fields s1
  have c0 := cancel_state s1
  have hne : s1.state ≠ EmulationState.EMRCT_OFF := by rw [h1, hst]; decide
  have hp1 : phys 1 = true := i2 (by rw [hst]; decide)
  refine ⟨?_, ?_, ?_⟩
  · simp [coherentFrom, expectedDown, Downstream.button, Downstream.isPress, post_button,
      post_is_down_press, hst]
  · funext x
    simp only [List.foldl_cons, List.foldl_nil, downAfter, expectedDown, Downstream.button,
      Downstream.isPress, post_button, post_is_down_press, c0, c1, h2, hst]
    by_cases hx : x = 1 <;> simp [hx, hp1]
  · refine ⟨by rw [c2, h3]; exact i1, fun h => absurd c0 h, ?_, ?_⟩
    · intro h; rw [c3 hne] at h; exact absurd h (by decide)
    · intro h; rw [c0] at h; cases h

theorem expectedDown_congr (a b : emulateRCT) (phys : Int → Bool)
    (h1 : a.state = b.state) (h2 : a.button = b.button) :
    expectedDown a phys = expectedDown b phys := by
  unfold expectedDown; rw [h1, h2]

theorem pipelineInv_congr (a b : emulateRCT) (phys : Int → Bool)
    (h1 : a.state = b.state) (h2 : a.button = b.button) (h3 : a.enabled = b.enabled)
    (h4 : a.timer = b.timer) (h : PipelineInv b phys) : PipelineInv a phys := by
  unfold PipelineInv at *; rw [h1, h2, h3, h4]; exact h

theorem absMotion_not_pending (s : emulateRCT) (vals : ValuatorMask)
    (hst : s.state ≠ EmulationState.EMRCT_PENDING) :
    (EvdevRCTEmuProcessAbsMotion s vals).2 = []
      ∧ (EvdevRCTEmuProcessAbsMotion s vals).1.state = s.state
      ∧ (EvdevRCTEmuProcessAbsMotion s vals).1.button = s.button
      ∧ (EvdevRCTEmuProcessAbsMotion s vals).1.enabled = s.enabled
      ∧ (EvdevRCTEmuProcessAbsMotion s vals).1.timer = s.timer := by
  unfold EvdevRCTEmuProcessAbsMotion
  rw [if_pos hst]
  by_cases h0 : valuator_mask_isset vals 0 = true <;>
    by_cases h1 : valuator_mask_isset vals 1 = true <;> simp [h0, h1]

theorem step_ok (s : emulateRCT) (phys : Int → Bool) (e : Event)
    (hinv : PipelineInv s phys) (hseq : sequencedAt s phys e = true)
    (hfor : foreignFreeAt s phys e = true) :
    coherentFrom (expectedDown s phys) (step s e).2 = true
      ∧ (step s e).2.foldl downAfter (expectedDown s phys)
          = expectedDown (step s e).1 (physAfter phys e)
      ∧ PipelineInv (step s e).1 (physAfter phys e) := by
  cases e with
  | button b p =>
    obtain ⟨i1, i2, i3, i4⟩ := hinv
    simp only [sequencedAt, bne_iff_ne, ne_eq] at hseq
    simp only [foreignFreeAt, Bool.or_eq_true, decide_eq_true_eq] at hfor
    by_cases hb : b = 1
    · subst hb
      cases p with
      | true =>
        have hp1 : phys 1 = false := by simpa using hseq
        have hoff : s.state = EmulationState.EMRCT_OFF := by
          by_contra h; rw [i2 h] at hp1; exact absurd hp1 (by decide)
        have hstep : filterDownstream s 1 true =
            ({ s with state := EmulationState.EMRCT_PENDING,
                      timer := TimerSet s.timer s.timeout }, []) := by
          simp [filterDownstream, EvdevRCTEmuFilterEvent, i1, hoff]
        simp only [step, physAfter, hstep, List.foldl_nil, coherentFrom, true_and]
        refine ⟨?_, i1, ?_, ?_, ?_⟩
        · funext x
          simp only [expectedDown, hoff]
          by_cases hx1 : x = 1 <;> simp [hx1, hp1]
        · intro _; simp
        · intro _; rfl
        · intro h; cases h
      | false =>
        have hp1 : phys 1 = true := by simpa using hseq
        obtain ⟨c1, c2, c3⟩ := cancel_fields s
        have c0 := cancel_state s
        cases hs : s.state with
        | EMRCT_OFF =>
          have hstep : filterDownstream s 1 false = (s, [Downstream.raw 1 false]) := by
            simp [filterDownstream, EvdevRCTEmuFilterEvent, i1, hs]
          simp only [step, physAfter, hstep]
          refine ⟨?_, ?_, i1, ?_, i3, ?_⟩
          · simp [coherentFrom, expectedDown, Downstream.button, Downstream.isPress, hs, hp1]
          · funext x
            simp only [List.foldl_cons, List.foldl_nil, downAfter, expectedDown,
              Downstream.button, Downstream.isPress, hs]
            by_cases hx1 : x = 1 <;> simp [hx1]
          · intro h; exact absurd hs h
          · intro h; rw [hs] at h; cases h
        | EMRCT_PENDING =>
          have hstep : filterDownstream s 1 false =
              (EvdevRCTCancel s,
                [Downstream.posted (EvdevRCTEmuPostButtonEvent s 1 ButtonAction.BUTTON_PRESS),
                 Downstream.raw 1 false]) := by
            simp [filterDownstream, EvdevRCTEmuFilterEvent, i1, hs]
          simp only [step, physAfter, hstep]
          refine ⟨?_, ?_, by rw [c2]; exact i1, fun h => absurd c0 h, ?_, ?_⟩
          · simp [coherentFrom, downAfter, expectedDown, Downstream.button, Downstream.isPress,
              post_button, post_is_down_press, hs]
          · funext x
            simp only [List.foldl_cons, List.foldl_nil, downAfter, expectedDown,
              Downstream.button, Downstream.isPress, post_button, post_is_down_press, hs, c0, c1]
            by_cases hx1 : x = 1 <;> simp [hx1]
          · intro h; rw [c3 (by rw [hs]; decide)] at h; exact absurd h (by decide)
          · intro h; rw [c0] at h; cases h
        | EMRCT_EMULATING =>
          have hstep : filterDownstream s 1 false =
              (EvdevRCTCancel s,
                [Downstream.posted
                  (EvdevRCTEmuPostButtonEvent s s.button ButtonAction.BUTTON_RELEASE)]) := by
            simp [filterDownstream, EvdevRCTEmuFilterEvent, i1, hs]
          simp only [step, physAfter, hstep]
          refine ⟨?_, ?_, by rw [c2]; exact i1, fun h => absurd c0 h, ?_, ?_⟩
          · simp [coherentFrom, expectedDown, Downstream.button, Downstream.isPress,
              post_button, post_is_down_release, hs]
          · funext x
            simp only [List.foldl_cons, List.foldl_nil, downAfter, expectedDown,
              Downstream.button, Downstream.isPress, post_button, post_is_down_release, hs, c0,
              c1]
            by_cases hx : x = s.button <;> by_cases hx1 : x = 1 <;> simp [hx, hx1] <;>
              exact i4 hs
          · intro h; rw [c3 (by rw [hs]; decide)] at h; exact absurd h (by decide)
          · intro h; rw [c0] at h; cases h
    · have hne : s.state ≠ EmulationState.EMRCT_EMULATING := by
        rcases hfor with h | h
        · exact absurd h hb
        · exact h
      obtain ⟨c1, c2, c3⟩ := cancel_fields s
      have c0 := cancel_state s
      have hpb : phys b = !p := by
        cases hq : phys b <;> cases p <;> simp_all
      cases hs : s.state with
      | EMRCT_OFF =>
        have hstep : filterDownstream s b p = (s, [Downstream.raw b p]) := by
          simp [filterDownstream, EvdevRCTEmuFilterEvent, i1, hs, hb]
        simp only [step, physAfter, hstep]
        refine ⟨?_, ?_, i1, ?_, i3, ?_⟩
        · simp [coherentFrom, expectedDown, Downstream.button, Downstream.isPress, hs, hb, hpb]
        · funext x
          simp only [List.foldl_cons, List.foldl_nil, downAfter, expectedDown,
            Downstream.button, Downstream.isPress, hs]
          by_cases hx : x = b <;> by_cases hx1 : x = 1 <;> simp [hx, hx1, hb, Ne.symm hb]
        · intro h; exact absurd hs h
        · intro h; rw [hs] at h; cases h
      | EMRCT_PENDING =>
        have hp1 : phys 1 = true := i2 (by rw [hs]; decide)
        have hstep : filterDownstream s b p =
            (EvdevRCTCancel s,
              [Downstream.posted (EvdevRCTEmuPostButtonEvent s 1 ButtonAction.BUTTON_PRESS),
               Downstream.raw b p]) := by
          simp [filterDownstream, EvdevRCTEmuFilterEvent, i1, hs, hb]
        simp only [step, physAfter, hstep]
        refine ⟨?_, ?_, by rw [c2]; exact i1, fun h => absurd c0 h, ?_, ?_⟩
        · simp [coherentFrom, downAfter, expectedDown, Downstream.button, Downstream.isPress,
            post_button, post_is_down_press, hs, hb, hpb]
        · funext x
          simp only [List.foldl_cons, List.foldl_nil, downAfter, expectedDown,
            Downstream.button, Downstream.isPress, post_button, post_is_down_press, hs, c0, c1]
          by_cases hx : x = b <;> by_cases hx1 : x = 1 <;>
            simp [hx, hx1, hb, Ne.symm hb, hp1]
        · intro h; rw [c3 (by rw [hs]; decide)] at h; exact absurd h (by decide)
        · intro h; rw [c0] at h; cases h
      | EMRCT_EMULATING => exact absurd hs hne
  | absMotion vals =>
    by_cases hst : s.state = EmulationState.EMRCT_PENDING
    · obtain ⟨f1, _, _, f4, f5, f6, _⟩ := markAbsolute_fields s
      have hstep := absMotion_pending s vals hst
      by_cases hc : (axisExceeds s vals 0 || axisExceeds s vals 1) = true
      · rw [if_pos hc] at hstep
        simp only [step, physAfter, hstep, List.map_cons, List.map_nil]
        exact cancel_pending_ok s (markAbsolute s) phys hinv hst f1 f4 f6
      · rw [if_neg hc] at hstep
        simp only [step, physAfter, hstep, List.map_nil, List.foldl_nil, coherentFrom, true_and]
        exact ⟨(expectedDown_congr _ _ phys f1 f4).symm,
          pipelineInv_congr _ _ phys f1 f4 f6 f5 hinv⟩
    · obtain ⟨a1, a2, a3, a4, a5⟩ := absMotion_not_pending s vals hst
      simp only [step, physAfter, a1, List.map_nil, List.foldl_nil, coherentFrom, true_and]
      exact ⟨(expectedDown_congr _ _ phys a2 a3).symm,
        pipelineInv_congr _ _ phys a2 a3 a4 a5 hinv⟩
  | relMotion dx dy =>
    by_cases hst : s.state = EmulationState.EMRCT_PENDING
    · have hout : EvdevRCTEmuProcessRelMotion s dx dy =
            ({ s with delta := (wrapInt32 (s.delta.1 + dx), wrapInt32 (s.delta.2 + dy)),
                      flags := s.flags ||| EVDEV_RELATIVE_EVENTS }, [])
          ∨ EvdevRCTEmuProcessRelMotion s dx dy =
            (EvdevRCTCancel
              { s with delta := (wrapInt32 (s.delta.1 + dx), wrapInt32 (s.delta.2 + dy)),
                       flags := s.flags ||| EVDEV_RELATIVE_EVENTS },
              [EvdevRCTEmuPostButtonEvent
                { s with delta := (wrapInt32 (s.delta.1 + dx), wrapInt32 (s.delta.2 + dy)),
                         flags := s.flags ||| EVDEV_RELATIVE_EVENTS }
                1 ButtonAction.BUTTON_PRESS]) := by
        unfold EvdevRCTEmuProcessRelMotion
        rw [if_neg (not_not.mpr hst)]
        dsimp only
        split
        · exact Or.inr rfl
        · exact Or.inl rfl
      rcases hout with hstep | hstep
      · simp only [step, physAfter, hstep, List.map_nil, List.foldl_nil, coherentFrom, true_and]
        exact ⟨(expectedDown_congr _ _ phys rfl rfl).symm,
          pipelineInv_congr _ _ phys rfl rfl rfl rfl hinv⟩
      · simp only [step, physAfter, hstep, List.map_cons, List.map_nil]
        exact cancel_pending_ok s _ phys hinv hst rfl rfl rfl
    · have hstep : EvdevRCTEmuProcessRelMotion s dx dy = (s, []) := by
        unfold EvdevRCTEmuProcessRelMotion; rw [if_pos hst]
      simp only [step, physAfter, hstep, List.map_nil, List.foldl_nil, coherentFrom, true_and]
      exact hinv
  | timer =>
    obtain ⟨i1, i2, i3, i4⟩ := hinv
    simp only [sequencedAt] at hseq
    simp only [foreignFreeAt, Bool.or_eq_true, decide_eq_true_eq, Bool.not_eq_true'] at hfor
    have hphys : s.button ≠ 1 → phys s.button = false := by
      intro hT
      rcases hfor with h | h
      · exact absurd h hT
      · exact h
    have hst := i3 hseq
    have hp1 : phys 1 = true := i2 (by rw [hst]; decide)
    have hstep : timerExpire s =
        ({ s with timer := OsTimer.idle, state := EmulationState.EMRCT_EMULATING },
          [EvdevRCTEmuPostButtonEvent s s.button ButtonAction.BUTTON_PRESS]) := by
      unfold timerExpire; rw [if_pos hseq]; rfl
    simp only [step, physAfter, hstep, List.map_cons, List.map_nil]
    refine ⟨?_, ?_, ?_⟩
    · simp only [coherentFrom, expectedDown, Downstream.button, Downstream.isPress, post_button,
        post_is_down_press, hst]
      by_cases hT : s.button = 1
      · simp [hT]
      · simp [hT, hphys hT]
    · funext x
      simp only [List.foldl_cons, List.foldl_nil, downAfter, expectedDown, Downstream.button,
        Downstream.isPress, post_button, post_is_down_press, hst]
      by_cases hx : x = s.button <;> by_cases hx1 : x = 1 <;> simp [hx, hx1]
    · exact ⟨i1, fun _ => hp1, fun h => absurd h (by simp [OsTimer.isArmed]), fun _ => hphys⟩

theorem run_coherent (es : List Event) :
    ∀ (s : emulateRCT) (phys : Int → Bool), PipelineInv s phys →
      wellSequenced s phys es = true → noForeignWhileEmulating s phys es = true →
      coherentFrom (expectedDown s phys) (run s es).2 = true := by
  induction es with
  | nil => intro s phys _ _ _; rfl
  | cons e rest ih =>
    intro s phys hinv hseq hfor
    simp only [wellSequenced, Bool.and_eq_true] at hseq
    simp only [noForeignWhileEmulating, Bool.and_eq_true] at hfor
    obtain ⟨k1, k2, k3⟩ := step_ok s phys e hinv hseq.1 hfor.1
    have hrest := ih (step s e).1 (physAfter phys e) k3 hseq.2 hfor.2
    simp only [run]
    rw [coherentFrom_append, k1, k2, hrest]
    rfl

/-- C5 (as amended): for every event sequence that starts in Idle with emulation
enabled, the timer not armed and no button held, in which the raw press and
release events of each physical button alternate starting with a press, the
timer fires only while it is armed, no raw event of a button other than button 1
arrives while the state is Emulating, and the timer does not fire while a target
button other than button 1 is held, the downstream stream (posted events
interleaved in arrival order with the raw events the filter did not consume)
presses no button that is already down downstream and releases no button that
is not down downstream. -/
theorem downstream_coherent (s : emulateRCT) (es : List Event)
    (hen : s.enabled ≠ 0) (hst : s.state = EmulationState.EMRCT_OFF)
    (htm : s.timer.isArmed = false)
    (hseq : wellSequenced s (fun _ => false) es = true)
    (hfor : noForeignWhileEmulating s (fun _ => false) es = true) :
    coherentFrom (fun _ => false) (run s es).2 = true := by
  have hinv : PipelineInv s (fun _ => false) := by
    refine ⟨hen, fun h => absurd hst h, ?_, fun _ _ => rfl⟩
    intro h; rw [htm] at h; exact absurd h (by decide)
  have hdown : expectedDown s (fun _ => false) = fun _ => false := by
    funext x
    simp [expectedDown, hst]
  have h := run_coherent es s (fun _ => false) hinv hseq hfor
  rw [hdown] at h
  exact h

/-- C5 (witness): on the default configuration (target button 3), button 3 is
pressed and released, button 2 is pressed and released around a tap of button
1, then button 1 is held until the timer fires and is released. -/
theorem downstream_coherent_witness :
    coherentFrom (fun _ => false)
      (run defaultEnabled
        [Event.button 3 true, Event.button 3 false, Event.button 2 true, Event.button 1 true,
         Event.button 2 false, Event.button 1 false, Event.button 1 true, Event.timer,
         Event.button 1 false]).2 = true :=
  downstream_coherent defaultEnabled _ (by decide) (by decide) (by decide) (by decide)
    (by decide)

/-- C5 (counterexample): on the default configuration (target button 3), two
well-sequenced event sequences with an incoherent downstream stream.  Press of
button 1, timer, press of button 2, release of button 1: the raw release of
button 1 reaches downstream although button 1 was never pressed downstream.
Press of button 3, press of button 1, timer: the target button 3 is pressed
downstream while it is already down. -/
theorem downstream_incoherent :
    defaultEnabled.enabled ≠ 0 ∧ defaultEnabled.state = EmulationState.EMRCT_OFF
      ∧ wellSequenced defaultEnabled (fun _ => false)
          [Event.button 1 true, Event.timer, Event.button 2 true, Event.button 1 false] = true
      ∧ coherentFrom (fun _ => false)
          (run defaultEnabled
            [Event.button 1 true, Event.timer, Event.button 2 true, Event.button 1 false]).2
          = false
      ∧ wellSequenced defaultEnabled (fun _ => false)
          [Event.button 3 true, Event.button 1 true, Event.timer] = true
      ∧ coherentFrom (fun _ => false)
          (run defaultEnabled [Event.button 3 true, Event.button 1 true, Event.timer]).2
          = false := by
  decide

/-! ## C6: release of button 1 while the press is pending -/

/-- C6 (as amended): with emulation enabled and state Pending,
`EvdevRCTEmuFilterEvent` for a release of button 1 posts a synthetic press of
button 1, cancels to Idle and returns `false`: the real release is not swallowed
but follows the synthetic press downstream. -/
theorem release_while_pending (s : emulateRCT) (hen : s.enabled ≠ 0)
    (hst : s.state = EmulationState.EMRCT_PENDING) :
    EvdevRCTEmuFilterEvent s 1 false =
        (false, EvdevRCTCancel s,
          [EvdevRCTEmuPostButtonEvent s 1 ButtonAction.BUTTON_PRESS])
      ∧ (EvdevRCTEmuFilterEvent s 1 false).2.1.state = EmulationState.EMRCT_OFF
      ∧ (filterDownstream s 1 false).2 =
          [Downstream.posted (EvdevRCTEmuPostButtonEvent s 1 ButtonAction.BUTTON_PRESS),
           Downstream.raw 1 false] := by
  have h : EvdevRCTEmuFilterEvent s 1 false =
      (false, EvdevRCTCancel s,
        [EvdevRCTEmuPostButtonEvent s 1 ButtonAction.BUTTON_PRESS]) := by
    simp [EvdevRCTEmuFilterEvent, hen, hst]
  refine ⟨h, ?_, ?_⟩
  · rw [h]; exact cancel_state s
  · simp [filterDownstream, h]

/-- C6 (witness): the pending default configuration. -/
theorem release_while_pending_witness :
    (EvdevRCTEmuFilterEvent pendingDefault 1 false).1 = false
      ∧ (EvdevRCTEmuFilterEvent pendingDefault 1 false).2.1.state = EmulationState.EMRCT_OFF :=
  ⟨congrArg Prod.fst (release_while_pending pendingDefault (by decide) (by decide)).1,
    (release_while_pending pendingDefault (by decide) (by decide)).2.1⟩

/-- C6 (counterexample): with emulation enabled and state Pending, the filter
returns `false` for the release of button 1, not `true`, and the raw release
reaches downstream. -/
theorem release_while_pending_not_consumed :
    pendingDefault.enabled ≠ 0 ∧ pendingDefault.state = EmulationState.EMRCT_PENDING
      ∧ (EvdevRCTEmuFilterEvent pendingDefault 1 false).1 = false
      ∧ Downstream.raw 1 false ∈ (filterDownstream pendingDefault 1 false).2 := by
  decide

/-! ## C7: events of another button -/

/-- C7: with emulation enabled, for every button other than 1 and for press and
release alike, `EvdevRCTEmuFilterEvent` returns `false`; from Pending it posts
exactly one press of button 1 and ends in Idle; from Emulating it posts exactly
one release of the target button and ends in Idle; from Idle it posts nothing
and leaves the record as it is. -/
theorem other_button_event (s : emulateRCT) (button : Int) (press : Bool)
    (hen : s.enabled ≠ 0) (hb : button ≠ 1) :
    (EvdevRCTEmuFilterEvent s button press).1 = false
      ∧ (s.state = EmulationState.EMRCT_PENDING →
          (EvdevRCTEmuFilterEvent s button press).2.2
              = [EvdevRCTEmuPostButtonEvent s 1 ButtonAction.BUTTON_PRESS]
            ∧ (EvdevRCTEmuFilterEvent s button press).2.2.map (fun e => (e.button, e.is_down))
              = [(1, 1)]
            ∧ (EvdevRCTEmuFilterEvent s button press).2.1.state = EmulationState.EMRCT_OFF)
      ∧ (s.state = EmulationState.EMRCT_EMULATING →
          (EvdevRCTEmuFilterEvent s button press).2.2
              = [EvdevRCTEmuPostButtonEvent s s.button ButtonAction.BUTTON_RELEASE]
            ∧ (EvdevRCTEmuFilterEvent s button press).2.2.map (fun e => (e.button, e.is_down))
              = [(s.button, 0)]
            ∧ (EvdevRCTEmuFilterEvent s button press).2.1.state = EmulationState.EMRCT_OFF)
      ∧ (s.state = EmulationState.EMRCT_OFF →
          EvdevRCTEmuFilterEvent s button press = (false, s, [])) := by
  unfold EvdevRCTEmuFilterEvent
  rw [if_neg hen, if_pos hb]
  cases hs : s.state <;>
    simp [cancel_state, post_button, post_is_down_press, post_is_down_release]

/-- C7 (witness): a press of button 2 while the default configuration is
pending, a release of button 2 while it is emulating, and a press of button 2
while it is idle. -/
theorem other_button_event_witness :
    (EvdevRCTEmuFilterEvent pendingDefault 2 true).1 = false
      ∧ (EvdevRCTEmuFilterEvent pendingDefault 2 true).2.2.map (fun e => (e.button, e.is_down))
          = [(1, 1)]
      ∧ (EvdevRCTEmuFilterEvent pendingDefault 2 true).2.1.state = EmulationState.EMRCT_OFF
      ∧ (EvdevRCTEmuFilterEvent
          { defaultEnabled with state := EmulationState.EMRCT_EMULATING } 2 false).2.2.map
          (fun e => (e.button, e.is_down)) = [(3, 0)]
      ∧ EvdevRCTEmuFilterEvent defaultEnabled 2 true = (false, defaultEnabled, []) :=
  have h := other_button_event pendingDefault 2 true (by decide) (by decide)
  have k := other_button_event { defaultEnabled with state := EmulationState.EMRCT_EMULATING }
    2 false (by decide) (by decide)
  have j := other_button_event defaultEnabled 2 true (by decide) (by decide)
  ⟨h.1, (h.2.1 (by decide)).2.1, (h.2.1 (by decide)).2.2, (k.2.2.1 (by decide)).2.1,
    j.2.2.2 (by decide)⟩

/-! ## C8: relative motion -/

/-- C9 (as amended): `EvdevRCTEmuTimer` has no guard on the state: invoked in
Pending it transitions to Emulating and posts a press of the target button, and
invoked in Idle or Emulating it does the same; every other field of the record
is left as it was. -/
theorem timer_callback_any_state (s : emulateRCT) :
    EvdevRCTEmuTimer s =
        ({ s with state := EmulationState.EMRCT_EMULATING },
          [EvdevRCTEmuPostButtonEvent s s.button ButtonAction.BUTTON_PRESS])
      ∧ (EvdevRCTEmuTimer s).1.state = EmulationState.EMRCT_EMULATING
      ∧ (EvdevRCTEmuTimer s).2.map (fun e => (e.button, e.is_down)) = [(s.button, 1)] :=
  ⟨rfl, rfl, rfl⟩

/-- C9 (counterexample): invoked in state Idle, the timer callback changes the
state to Emulating and posts a press of the target button 3. -/
theorem timer_callback_in_idle_not_noop :
    defaultEnabled.state = EmulationState.EMRCT_OFF
      ∧ (EvdevRCTEmuTimer defaultEnabled).1.state = EmulationState.EMRCT_EMULATING
      ∧ (EvdevRCTEmuTimer defaultEnabled).2 =
          [{ is_absolute := Relative, button := 3, is_down := 1, first_valuator := 0,
             num_valuators := 0, valuators := [] }] := by
  decide

/-! ## C10: emulation disabled -/

/-- C10: if emulation is disabled, `EvdevRCTEmuFilterEvent` returns `false`,
posts no event and leaves the whole record (emulation state, timer, motion
reference) unchanged, for every button, action and emulation state. -/
theorem filter_disabled (s : emulateRCT) (button : Int) (press : Bool)
    (hdis : s.enabled = 0) :
    EvdevRCTEmuFilterEvent s button press = (false, s, []) := by
  simp [EvdevRCTEmuFilterEvent, hdis]

/-- C10 (witness): a release of button 1 in state Emulating with emulation
disabled. -/
theorem filter_disabled_witness :
    EvdevRCTEmuFilterEvent
        { defaultEnabled with enabled := 0, state := EmulationState.EMRCT_EMULATING } 1 false
      = (false, { defaultEnabled with enabled := 0, state := EmulationState.EMRCT_EMULATING },
          []) :=
  filter_disabled _ 1 false rfl

/-! ## C11: rejected property writes -/

theorem setProperty_result (atoms : PropAtoms) (s : emulateRCT) (atom : Nat)
    (val : XIPropertyValue) (checkonly : Bool) :
    EvdevRCTEmuSetProperty atoms s atom val checkonly = (BadMatch, s)
      ∨ EvdevRCTEmuSetProperty atoms s atom val checkonly = (Success, s)
      ∨ (checkonly = false
          ∧ (EvdevRCTEmuSetProperty atoms s atom val checkonly
                = (Success, { s with enabled := readCARD8 val })
              ∨ EvdevRCTEmuSetProperty atoms s atom val checkonly
                = (Success, { s with timeout := readCARD32 val })
              ∨ EvdevRCTEmuSetProperty atoms s atom val checkonly
                = (Success, { s with button := (readCARD8 val : Int) })
              ∨ EvdevRCTEmuSetProperty atoms s atom val checkonly
                = (Success, { s with threshold := wrapInt32 (readCARD32 val : Int) }))) := by
  unfold EvdevRCTEmuSetProperty
  by_cases h1 : atom = atoms.prop_rctemu
  · rw [if_pos h1]
    by_cases c : (val.format ≠ 8 ∨ val.size ≠ 1 ∨ val.type ≠ XA_INTEGER)
    · rw [if_pos c]; exact Or.inl rfl
    · rw [if_neg c]
      cases checkonly
      · rw [if_pos rfl]; exact Or.inr (Or.inr ⟨rfl, Or.inl rfl⟩)
      · rw [if_neg (by decide)]; exact Or.inr (Or.inl rfl)
  rw [if_neg h1]
  by_cases h2 : atom = atoms.prop_rcttimeout
  · rw [if_pos h2]
    by_cases c : (val.format ≠ 32 ∨ val.size ≠ 1 ∨ val.type ≠ XA_INTEGER)
    · rw [if_pos c]; exact Or.inl rfl
    · rw [if_neg c]
      cases checkonly
      · rw [if_pos rfl]; exact Or.inr (Or.inr ⟨rfl, Or.inr (Or.inl rfl)⟩)
      · rw [if_neg (by decide)]; exact Or.inr (Or.inl rfl)
  rw [if_neg h2]
  by_cases h3 : atom = atoms.prop_rctbutton
  · rw [if_pos h3]
    by_cases c : (val.format ≠ 8 ∨ val.size ≠ 1 ∨ val.type ≠ XA_INTEGER)
    · rw [if_pos c]; exact Or.inl rfl
    · rw [if_neg c]
      cases checkonly
      · rw [if_pos rfl]; exact Or.inr (Or.inr ⟨rfl, Or.inr (Or.inr (Or.inl rfl))⟩)
      · rw [if_neg (by decide)]; exact Or.inr (Or.inl rfl)
  rw [if_neg h3]
  by_cases h4 : atom = atoms.prop_rctthreshold
  · rw [if_pos h4]
    by_cases c : (val.format ≠ 32 ∨ val.size ≠ 1 ∨ val.type ≠ XA_INTEGER)
    · rw [if_pos c]; exact Or.inl rfl
    · rw [if_neg c]
      cases checkonly
      · rw [if_pos rfl]; exact Or.inr (Or.inr ⟨rfl, Or.inr (Or.inr (Or.inr rfl))⟩)
      · rw [if_neg (by decide)]; exact Or.inr (Or.inl rfl)
  rw [if_neg h4]
  exact Or.inr (Or.inl rfl)

theorem setProperty_fields (atoms : PropAtoms) (s : emulateRCT) (atom : Nat)
    (val : XIPropertyValue) (checkonly : Bool) :
    (EvdevRCTEmuSetProperty atoms s atom val checkonly).2.state = s.state
      ∧ (EvdevRCTEmuSetProperty atoms s atom val checkonly).2.timer = s.timer
      ∧ (EvdevRCTEmuSetProperty atoms s atom val checkonly).2.delta = s.delta
      ∧ (EvdevRCTEmuSetProperty atoms s atom val checkonly).2.startpos = s.startpos
      ∧ (EvdevRCTEmuSetProperty atoms s atom val checkonly).2.flags = s.flags := by
  rcases setProperty_result atoms s atom val checkonly with h | h | ⟨_, h | h | h | h⟩
  · rw [h]; exact ⟨rfl, rfl, rfl, rfl, rfl⟩
  · rw [h]; exact ⟨rfl, rfl, rfl, rfl, rfl⟩
  · rw [h]; exact ⟨rfl, rfl, rfl, rfl, rfl⟩
  · rw [h]; exact ⟨rfl, rfl, rfl, rfl, rfl⟩
  · rw [h]; exact ⟨rfl, rfl, rfl, rfl, rfl⟩
  · have h2 := congrArg Prod.snd h
    dsimp only at h2
    rw [h2]; exact ⟨rfl, rfl, rfl, rfl, rfl⟩

/-- C11: for each of the four properties (the four atoms being pairwise
different) and every value whose format, size or type differs from the required
one (8 bits for enabled and the target button, 32 bits for timeout and
threshold, one item, type integer), `EvdevRCTEmuSetProperty` returns the failure
status `BadMatch`, for a real write and a validation-only call alike, and
leaves the whole record unchanged, so that all four configuration fields and the
emulation state keep their previous values. -/
theorem setProperty_rejects (atoms : PropAtoms) (s : emulateRCT) (val : XIPropertyValue)
    (checkonly : Bool) (hd : atoms.distinct) :
    BadMatch ≠ Success
      ∧ ((val.format ≠ 8 ∨ val.size ≠ 1 ∨ val.type ≠ XA_INTEGER) →
          EvdevRCTEmuSetProperty atoms s atoms.prop_rctemu val checkonly = (BadMatch, s)
            ∧ EvdevRCTEmuSetProperty atoms s atoms.prop_rctbutton val checkonly = (BadMatch, s))
      ∧ ((val.format ≠ 32 ∨ val.size ≠ 1 ∨ val.type ≠ XA_INTEGER) →
          EvdevRCTEmuSetProperty atoms s atoms.prop_rcttimeout val checkonly = (BadMatch, s)
            ∧ EvdevRCTEmuSetProperty atoms s atoms.prop_rctthreshold val checkonly
              = (BadMatch, s)) := by
  obtain ⟨d1, d2, d3, d4, d5, d6⟩ := hd
  refine ⟨by decide, fun h => ⟨?_, ?_⟩, fun h => ⟨?_, ?_⟩⟩
  · unfold EvdevRCTEmuSetProperty
    rw [if_pos rfl, if_pos h]
  · unfold EvdevRCTEmuSetProperty
    rw [if_neg (Ne.symm d2), if_neg (Ne.symm d4), if_pos rfl, if_pos h]
  · unfold EvdevRCTEmuSetProperty
    rw [if_neg (Ne.symm d1), if_pos rfl, if_pos h]
  · unfold EvdevRCTEmuSetProperty
    rw [if_neg (Ne.symm d3), if_neg (Ne.symm d5), if_neg (Ne.symm d6), if_pos rfl, if_pos h]

/-- C11 (witness): a write of the timeout with format 8 on the default
configuration is rejected and the timeout read back is still 1000. -/
theorem setProperty_rejects_witness :
    EvdevRCTEmuSetProperty sampleAtoms defaultEnabled sampleAtoms.prop_rcttimeout
        (integerValue 8 5) false = (BadMatch, defaultEnabled)
      ∧ (EvdevRCTEmuSetProperty sampleAtoms defaultEnabled sampleAtoms.prop_rcttimeout
          (integerValue 8 5) false).2.timeout = 1000 :=
  have h := (setProperty_rejects sampleAtoms defaultEnabled (integerValue 8 5) false
    (by unfold PropAtoms.distinct; decide)).2.2 (Or.inl (by decide))
  ⟨h.1, by rw [h.1]; rfl⟩

/-! ## C12: validation-only calls -/

/-- C12: for every property atom and every value, a validation-only call of
`EvdevRCTEmuSetProperty` returns the same status as the real write on the same
record, and leaves the record, hence every configuration field, unchanged. -/
theorem setProperty_checkonly (atoms : PropAtoms) (s : emulateRCT) (atom : Nat)
    (val : XIPropertyValue) :
    (EvdevRCTEmuSetProperty atoms s atom val true).1
        = (EvdevRCTEmuSetProperty atoms s atom val false).1
      ∧ (EvdevRCTEmuSetProperty atoms s atom val true).2 = s := by
  unfold EvdevRCTEmuSetProperty
  by_cases h1 : atom = atoms.prop_rctemu
  · simp only [if_pos h1]
    by_cases c : (val.format ≠ 8 ∨ val.size ≠ 1 ∨ val.type ≠ XA_INTEGER)
    · simp only [if_pos c, and_self]
    · simp only [if_neg c, Bool.true_eq_false, if_false, if_true, and_self]
  simp only [if_neg h1]
  by_cases h2 : atom = atoms.prop_rcttimeout
  · simp only [if_pos h2]
    by_cases c : (val.format ≠ 32 ∨ val.size ≠ 1 ∨ val.type ≠ XA_INTEGER)
    · simp only [if_pos c, and_self]
    · simp only [if_neg c, Bool.true_eq_false, if_false, if_true, and_self]
  simp only [if_neg h2]
  by_cases h3 : atom = atoms.prop_rctbutton
  · simp only [if_pos h3]
    by_cases c : (val.format ≠ 8 ∨ val.size ≠ 1 ∨ val.type ≠ XA_INTEGER)
    · simp only [if_pos c, and_self]
    · simp only [if_neg c, Bool.true_eq_false, if_false, if_true, and_self]
  simp only [if_neg h3]
  by_cases h4 : atom = atoms.prop_rctthreshold
  · simp only [if_pos h4]
    by_cases c : (val.format ≠ 32 ∨ val.size ≠ 1 ∨ val.type ≠ XA_INTEGER)
    · simp only [if_pos c, and_self]
    · simp only [if_neg c, Bool.true_eq_false, if_false, if_true, and_self]
  simp only [if_neg h4]
  exact ⟨trivial, trivial⟩

/-! ## C13: accepted property writes -/

/-- C13: for each of the four properties (the four atoms being pairwise
different), a real write of a value of type integer with one item of the
required format succeeds and sets exactly the corresponding field: enabled and
the target button to the 8-bit item, the timeout to the 32-bit item, the
threshold to the 32-bit item stored in an `int` (the item itself below 2^31);
every other field of the record is unchanged. -/
theorem setProperty_accepts (atoms : PropAtoms) (s : emulateRCT) (v : Nat)
    (hd : atoms.distinct) :
    (v < 256 →
        EvdevRCTEmuSetProperty atoms s atoms.prop_rctemu (integerValue 8 v) false
            = (Success, { s with enabled := v })
          ∧ EvdevRCTEmuSetProperty atoms s atoms.prop_rctbutton (integerValue 8 v) false
            = (Success, { s with button := (v : Int) }))
      ∧ (v < 4294967296 →
          EvdevRCTEmuSetProperty atoms s atoms.prop_rcttimeout (integerValue 32 v) false
              = (Success, { s with timeout := v })
            ∧ EvdevRCTEmuSetProperty atoms s atoms.prop_rctthreshold (integerValue 32 v) false
              = (Success, { s with threshold := wrapInt32 (v : Int) })
            ∧ (v < 2147483648 → wrapInt32 (v : Int) = (v : Int))) := by
  obtain ⟨d1, d2, d3, d4, d5, d6⟩ := hd
  refine ⟨fun h => ⟨?_, ?_⟩, fun h => ⟨?_, ?_, ?_⟩⟩
  · unfold EvdevRCTEmuSetProperty
    rw [if_pos rfl]
    simp [integerValue, readCARD8, Nat.mod_eq_of_lt h]
  · unfold EvdevRCTEmuSetProperty
    rw [if_neg (Ne.symm d2), if_neg (Ne.symm d4), if_pos rfl]
    simp [integerValue, readCARD8, Nat.mod_eq_of_lt h]
  · unfold EvdevRCTEmuSetProperty
    rw [if_neg (Ne.symm d1), if_pos rfl]
    simp [integerValue, readCARD32, Nat.mod_eq_of_lt h]
  · unfold EvdevRCTEmuSetProperty
    rw [if_neg (Ne.symm d3), if_neg (Ne.symm d5), if_neg (Ne.symm d6), if_pos rfl]
    simp [integerValue, readCARD32, Nat.mod_eq_of_lt h]
  · intro h2
    exact wrapInt32_of_representable _ (by omega) (by omega)

/-- C13 (witness): on the default configuration, enabled is written with 0, the
target button with 2, the timeout with 500 and the threshold with 5. -/
theorem setProperty_accepts_witness :
    EvdevRCTEmuSetProperty sampleAtoms defaultEnabled sampleAtoms.prop_rctemu
        (integerValue 8 0) false = (Success, { defaultEnabled with enabled := 0 })
      ∧ EvdevRCTEmuSetProperty sampleAtoms defaultEnabled sampleAtoms.prop_rctbutton
        (integerValue 8 2) false = (Success, { defaultEnabled with button := 2 })
      ∧ EvdevRCTEmuSetProperty sampleAtoms defaultEnabled sampleAtoms.prop_rcttimeout
        (integerValue 32 500) false = (Success, { defaultEnabled with timeout := 500 })
      ∧ (EvdevRCTEmuSetProperty sampleAtoms defaultEnabled sampleAtoms.prop_rctthreshold
        (integerValue 32 5) false).2.threshold = 5 :=
  have h2 := setProperty_accepts sampleAtoms defaultEnabled 2
    (by unfold PropAtoms.distinct; decide)
  have h0 := setProperty_accepts sampleAtoms defaultEnabled 0
    (by unfold PropAtoms.distinct; decide)
  have h500 := setProperty_accepts sampleAtoms defaultEnabled 500
    (by unfold PropAtoms.distinct; decide)
  have h5 := setProperty_accepts sampleAtoms defaultEnabled 5
    (by unfold PropAtoms.distinct; decide)
  ⟨(h0.1 (by decide)).1, (h2.1 (by decide)).2, (h500.2 (by decide)).1,
    by rw [(h5.2 (by decide)).2.1]; exact (h5.2 (by decide)).2.2 (by decide)⟩

/-! ## C14: cancelling twice -/

/-- C14: `EvdevRCTCancel` is idempotent: for every record, calling it twice in a
row yields the same record (emulation state, timer, motion reference, flags) as
calling it once; the result is in state Idle; the function has no call of
`EvdevRCTEmuPostButtonEvent`, so neither call posts an event (the embedding of
the function yields the record only). -/
theorem cancel_idempotent (s : emulateRCT) :
    EvdevRCTCancel (EvdevRCTCancel s) = EvdevRCTCancel s
      ∧ (EvdevRCTCancel s).state = EmulationState.EMRCT_OFF
      ∧ (EvdevRCTCancel s).timer = (if s.state ≠ EmulationState.EMRCT_OFF
          then TimerCancel s.timer else s.timer) := by
  refine ⟨?_, cancel_state s, ?_⟩
  · have h := cancel_state s
    conv_lhs => unfold EvdevRCTCancel
    simp only [h, ne_eq, not_true_eq_false, if_false]
    unfold EvdevRCTCancel
    by_cases hs : s.state = EmulationState.EMRCT_OFF <;> simp [hs]
  · unfold EvdevRCTCancel
    by_cases hs : s.state = EmulationState.EMRCT_OFF <;> simp [hs]

/-! ## C15: the timer is armed only in state Pending -/

theorem filter_outcome (s : emulateRCT) (b : Int) (p : Bool) :
    (EvdevRCTEmuFilterEvent s b p).2.1 = s
      ∨ ((EvdevRCTEmuFilterEvent s b p).2.1 = EvdevRCTCancel s
          ∧ s.state ≠ EmulationState.EMRCT_OFF)
      ∨ ((EvdevRCTEmuFilterEvent s b p).2.1
            = { s with state := EmulationState.EMRCT_PENDING,
                       timer := TimerSet s.timer s.timeout }
          ∧ s.state = EmulationState.EMRCT_OFF) := by
  unfold EvdevRCTEmuFilterEvent
  by_cases hen : s.enabled = 0
  · simp [hen]
  · by_cases hb : b = 1 <;> cases p <;> cases hs : s.state <;> simp [hen, hb]

theorem relMotion_outcome (s : emulateRCT) (dx dy : Int) :
    ((EvdevRCTEmuProcessRelMotion s dx dy).1.state = s.state
        ∧ (EvdevRCTEmuProcessRelMotion s dx dy).1.timer = s.timer
        ∧ (EvdevRCTEmuProcessRelMotion s dx dy).1.timeout = s.timeout)
      ∨ (s.state = EmulationState.EMRCT_PENDING
          ∧ (EvdevRCTEmuProcessRelMotion s dx dy).1.state = EmulationState.EMRCT_OFF
          ∧ (EvdevRCTEmuProcessRelMotion s dx dy).1.timer.isArmed = false) := by
  unfold EvdevRCTEmuProcessRelMotion
  by_cases hst : s.state = EmulationState.EMRCT_PENDING
  · rw [if_neg (not_not.mpr hst)]
    dsimp only
    split
    · refine Or.inr ⟨hst, cancel_state _, ?_⟩
      exact (cancel_fields _).2.2 (by show s.state ≠ _; rw [hst]; decide)
    · exact Or.inl ⟨rfl, rfl, rfl⟩
  · rw [if_pos hst]; exact Or.inl ⟨rfl, rfl, rfl⟩

theorem absMotion_outcome (s : emulateRCT) (vals : ValuatorMask) :
    ((EvdevRCTEmuProcessAbsMotion s vals).1.state = s.state
        ∧ (EvdevRCTEmuProcessAbsMotion s vals).1.timer = s.timer)
      ∨ (s.state = EmulationState.EMRCT_PENDING
          ∧ (EvdevRCTEmuProcessAbsMotion s vals).1.state = EmulationState.EMRCT_OFF
          ∧ (EvdevRCTEmuProcessAbsMotion s vals).1.timer.isArmed = false) := by
  by_cases hst : s.state = EmulationState.EMRCT_PENDING
  · obtain ⟨f1, _, _, _, f5, _⟩ := markAbsolute_fields s
    rw [absMotion_pending s vals hst]
    split
    · refine Or.inr ⟨hst, cancel_state _, ?_⟩
      exact (cancel_fields _).2.2 (by rw [f1, hst]; decide)
    · exact Or.inl ⟨f1, f5⟩
  · obtain ⟨_, a2, _, _, a5⟩ := absMotion_not_pending s vals hst
    exact Or.inl ⟨a2, a5⟩

/-- What one action does to the emulation state and the timer: nothing, or a turn
to Idle or Emulating with the timer disarmed, or the turn from Idle to Pending
with `TimerSet` called for the configured timeout. -/
theorem act_outcome (atoms : PropAtoms) (s : emulateRCT) (a : Action) :
    ((act atoms s a).state = s.state ∧ (act atoms s a).timer = s.timer)
      ∨ ((act atoms s a).state ≠ EmulationState.EMRCT_PENDING
          ∧ (act atoms s a).timer.isArmed = false)
      ∨ ((act atoms s a).state = EmulationState.EMRCT_PENDING
          ∧ s.state = EmulationState.EMRCT_OFF
          ∧ (act atoms s a).timer = TimerSet s.timer s.timeout) := by
  cases a with
  | setProperty atom val checkonly =>
    obtain ⟨h1, h2, _⟩ := setProperty_fields atoms s atom val checkonly
    exact Or.inl ⟨h1, h2⟩
  | event e =>
    cases e with
    | button b p =>
      have hact : act atoms s (Action.event (Event.button b p))
          = (EvdevRCTEmuFilterEvent s b p).2.1 := rfl
      rw [hact]
      rcases filter_outcome s b p with h | ⟨h, hs⟩ | ⟨h, hs⟩
      · rw [h]; exact Or.inl ⟨rfl, rfl⟩
      · rw [h]
        refine Or.inr (Or.inl ⟨?_, (cancel_fields s).2.2 hs⟩)
        rw [cancel_state]; decide
      · rw [h]; exact Or.inr (Or.inr ⟨rfl, hs, rfl⟩)
    | absMotion vals =>
      have hact : act atoms s (Action.event (Event.absMotion vals))
          = (EvdevRCTEmuProcessAbsMotion s vals).1 := rfl
      rw [hact]
      rcases absMotion_outcome s vals with h | ⟨hs, h1, h2⟩
      · exact Or.inl h
      · refine Or.inr (Or.inl ⟨?_, h2⟩)
        rw [h1]; decide
    | relMotion dx dy =>
      have hact : act atoms s (Action.event (Event.relMotion dx dy))
          = (EvdevRCTEmuProcessRelMotion s dx dy).1 := rfl
      rw [hact]
      rcases relMotion_outcome s dx dy with h | ⟨hs, h1, h2⟩
      · exact Or.inl ⟨h.1, h.2.1⟩
      · refine Or.inr (Or.inl ⟨?_, h2⟩)
        rw [h1]; decide
    | timer =>
      have hact : act atoms s (Action.event Event.timer) = (timerExpire s).1 := rfl
      rw [hact]
      by_cases ha : s.timer.isArmed = true
      · have h : (timerExpire s).1
            = { s with timer := OsTimer.idle, state := EmulationState.EMRCT_EMULATING } := by
          unfold timerExpire; rw [if_pos ha]; rfl
        rw [h]; exact Or.inr (Or.inl ⟨fun hc => EmulationState.noConfusion hc, rfl⟩)
      · have h : (timerExpire s).1 = s := by unfold timerExpire; rw [if_neg ha]
        rw [h]; exact Or.inl ⟨rfl, rfl⟩

theorem actAll_timer_inv (atoms : PropAtoms) (l : List Action) :
    ∀ s : emulateRCT, (s.timer.isArmed = true → s.state = EmulationState.EMRCT_PENDING) →
      (actAll atoms s l).timer.isArmed = true →
        (actAll atoms s l).state = EmulationState.EMRCT_PENDING := by
  induction l with
  | nil => intro s h; exact h
  | cons a rest ih =>
    intro s h
    apply ih (act atoms s a)
    intro harm
    rcases act_outcome atoms s a with ⟨h1, h2⟩ | ⟨_, h2⟩ | ⟨h1, _, _⟩
    · rw [h1]; rw [h2] at harm; exact h harm
    · rw [h2] at harm; exact absurd harm (by decide)
    · exact h1

/-- C15 (as amended): in every state reachable from an initial state (Idle, timer
not armed) through button events, absolute and relative motion, property writes
and timer firings, the timer is armed only if the emulation state is Pending.
On the transition from Idle to Pending `TimerSet` is called with the configured
timeout, which arms the timer with that timeout when it is not zero; with a
timeout of zero the slot gets no deadline.  After every transition out of
Pending, to Idle or to Emulating, the timer is no longer armed. -/
theorem timer_armed_only_pending (atoms : PropAtoms) (s0 : emulateRCT) (l : List Action)
    (a : Action) (_h0 : s0.state = EmulationState.EMRCT_OFF)
    (ht : s0.timer.isArmed = false) :
    ((actAll atoms s0 l).timer.isArmed = true →
        (actAll atoms s0 l).state = EmulationState.EMRCT_PENDING)
      ∧ ((actAll atoms s0 l).state = EmulationState.EMRCT_OFF →
          (act atoms (actAll atoms s0 l) a).state = EmulationState.EMRCT_PENDING →
          (act atoms (actAll atoms s0 l) a).timer
              = TimerSet (actAll atoms s0 l).timer (actAll atoms s0 l).timeout
            ∧ ((actAll atoms s0 l).timeout ≠ 0 →
                (act atoms (actAll atoms s0 l) a).timer
                  = OsTimer.armed (actAll atoms s0 l).timeout)
            ∧ ((actAll atoms s0 l).timeout = 0 →
                (act atoms (actAll atoms s0 l) a).timer.isArmed = false))
      ∧ ((actAll atoms s0 l).state = EmulationState.EMRCT_PENDING →
          (act atoms (actAll atoms s0 l) a).state ≠ EmulationState.EMRCT_PENDING →
          (act atoms (actAll atoms s0 l) a).timer.isArmed = false) := by
  have hinv0 : s0.timer.isArmed = true → s0.state = EmulationState.EMRCT_PENDING := by
    intro h; rw [ht] at h; exact absurd h (by decide)
  refine ⟨actAll_timer_inv atoms l s0 hinv0, ?_, ?_⟩
  · intro hs hp
    rcases act_outcome atoms (actAll atoms s0 l) a with ⟨h1, _⟩ | ⟨h1, _⟩ | ⟨_, _, h3⟩
    · rw [h1, hs] at hp; exact absurd hp (by decide)
    · exact absurd hp h1
    · refine ⟨h3, fun hz => ?_, fun hz => ?_⟩
      · rw [h3]; simp [TimerSet, hz]
      · rw [h3]; simp [TimerSet, hz, OsTimer.isArmed]
  · intro hs hp
    rcases act_outcome atoms (actAll atoms s0 l) a with ⟨h1, _⟩ | ⟨_, h2⟩ | ⟨h1, _, _⟩
    · rw [h1] at hp; exact absurd hs hp
    · exact h2
    · exact absurd h1 hp

/-- C15 (witness): from the default configuration, the press of button 1 arms
the timer with the configured 1000 ms; after the press, a write of the threshold
and a relative sample, the timer firing leaves the timer not armed. -/
theorem timer_armed_only_pending_witness :
    (act sampleAtoms (actAll sampleAtoms defaultEnabled [])
        (Action.event (Event.button 1 true))).timer = OsTimer.armed 1000
      ∧ (act sampleAtoms (actAll sampleAtoms defaultEnabled
          [Action.event (Event.button 1 true),
           Action.setProperty sampleAtoms.prop_rctthreshold (integerValue 32 5) false,
           Action.event (Event.relMotion 1 0)]) (Action.event Event.timer)).timer.isArmed
          = false :=
  have k := timer_armed_only_pending sampleAtoms defaultEnabled []
    (Action.event (Event.button 1 true)) (by decide) (by decide)
  have h := timer_armed_only_pending sampleAtoms defaultEnabled
    [Action.event (Event.button 1 true),
     Action.setProperty sampleAtoms.prop_rctthreshold (integerValue 32 5) false,
     Action.event (Event.relMotion 1 0)] (Action.event Event.timer) (by decide) (by decide)
  ⟨(k.2.1 (by decide) (by decide)).2.1 (by decide), h.2.2 (by decide) (by decide)⟩

/-- C15 (counterexample): with a configured timeout of zero, the press of button
1 in state Idle (emulation enabled, timer not armed) leads to state Pending with
the timer not armed. -/
theorem zero_timeout_not_armed :
    zeroTimeout.enabled ≠ 0 ∧ zeroTimeout.state = EmulationState.EMRCT_OFF
      ∧ zeroTimeout.timer.isArmed = false
      ∧ (act sampleAtoms zeroTimeout (Action.event (Event.button 1 true))).state
          = EmulationState.EMRCT_PENDING
      ∧ (act sampleAtoms zeroTimeout (Action.event (Event.button 1 true))).timer.isArmed
          = false := by
  decide

/-! ## C16: the motion reference after a cancellation -/

/-- C16 (as amended): whenever `EvdevRCTCancel` is called in a state other than
Idle, the state becomes Idle, the accumulated relative delta is (0,0) and the
coordinate mode is unset (no flag is left, so that posting is in relative mode);
the absolute start position is not zeroed but keeps its value. -/
theorem cancel_motion_reference (s : emulateRCT) (hst : s.state ≠ EmulationState.EMRCT_OFF) :
    (EvdevRCTCancel s).state = EmulationState.EMRCT_OFF
      ∧ (EvdevRCTCancel s).delta = (0, 0)
      ∧ (EvdevRCTCancel s).flags = 0
      ∧ postingMode (EvdevRCTCancel s) = Relative
      ∧ (EvdevRCTCancel s).startpos = s.startpos := by
  rw [cancel_of_active s hst]
  refine ⟨rfl, rfl, rfl, ?_, rfl⟩
  unfold postingMode
  rw [post_relative _ _ _ (by show (0 : Nat) &&& EVDEV_ABSOLUTE_EVENTS = 0; decide)]

/-- C16 (witness): the pending default configuration with start position
(100,100) and accumulated delta (3,4). -/
theorem cancel_motion_reference_witness :
    (EvdevRCTCancel { pendingDefault with startpos := (100, 100), delta := (3, 4) }).delta
        = (0, 0)
      ∧ (EvdevRCTCancel { pendingDefault with startpos := (100, 100), delta := (3, 4) }).startpos
        = (100, 100) :=
  have h := cancel_motion_reference
    { pendingDefault with startpos := (100, 100), delta := (3, 4) } (by decide)
  ⟨h.2.1, h.2.2.2.2⟩

/-- C16 (counterexample): `EvdevRCTCancel` called in state Pending with start
position (100,100) leaves the start position at (100,100), not at (0,0). -/
theorem cancel_keeps_startpos :
    ({ pendingDefault with startpos := (100, 100) } : emulateRCT).state
        ≠ EmulationState.EMRCT_OFF
      ∧ (EvdevRCTCancel { pendingDefault with startpos := (100, 100) }).state
        = EmulationState.EMRCT_OFF
      ∧ (EvdevRCTCancel { pendingDefault with startpos := (100, 100) }).startpos
        = (100, 100)
      ∧ (EvdevRCTCancel { pendingDefault with startpos := (100, 100) }).startpos ≠ (0, 0) := by
  decide

/-! ## C17: the posting mode within an episode -/

theorem postingMode_absolute_iff (s : emulateRCT) :
    postingMode s = Absolute ↔ s.flags &&& EVDEV_ABSOLUTE_EVENTS ≠ 0 := by
  unfold postingMode EvdevRCTEmuPostButtonEvent
  by_cases h : s.flags &&& EVDEV_ABSOLUTE_EVENTS = 0
  · simp [h, Absolute, Relative]
  · simp [h]

theorem postingMode_congr (a b : emulateRCT)
    (h : a.flags &&& EVDEV_ABSOLUTE_EVENTS = b.flags &&& EVDEV_ABSOLUTE_EVENTS) :
    postingMode a = postingMode b := by
  unfold postingMode EvdevRCTEmuPostButtonEvent
  simp only [h]

/-- A motion sample keeps the absolute flag of a pending episode, and every
event it posts while that flag is set is posted in absolute mode. -/
theorem motion_keeps_absolute (s : emulateRCT) (e : Event) (hm : e.isMotion = true)
    (hinv : s.state = EmulationState.EMRCT_PENDING → s.flags &&& EVDEV_ABSOLUTE_EVENTS ≠ 0) :
    ((step s e).1.state = EmulationState.EMRCT_PENDING →
        (step s e).1.flags &&& EVDEV_ABSOLUTE_EVENTS ≠ 0)
      ∧ ∀ d ∈ (step s e).2, ∃ ev, d = Downstream.posted ev ∧ ev.is_absolute = Absolute := by
  cases e with
  | button b p => simp [Event.isMotion] at hm
  | timer => simp [Event.isMotion] at hm
  | absMotion vals =>
    have hstep : step s (Event.absMotion vals)
        = ((EvdevRCTEmuProcessAbsMotion s vals).1,
            (EvdevRCTEmuProcessAbsMotion s vals).2.map Downstream.posted) := rfl
    rw [hstep]
    by_cases hst : s.state = EmulationState.EMRCT_PENDING
    · rw [absMotion_pending s vals hst]
      split
      · refine ⟨fun h => ?_, fun d hd => ?_⟩
        · rw [cancel_state] at h; exact EmulationState.noConfusion h
        · simp only [List.map_cons, List.map_nil, List.mem_singleton] at hd
          exact ⟨_, hd, by rw [post_absolute _ _ _ (markAbsolute_flags s)]⟩
      · exact ⟨fun _ => markAbsolute_flags s, fun d hd => by simp at hd⟩
    · obtain ⟨a1, a2, _⟩ := absMotion_not_pending s vals hst
      refine ⟨fun h => ?_, fun d hd => ?_⟩
      · rw [a2] at h; exact absurd h hst
      · rw [a1] at hd; simp at hd
  | relMotion dx dy =>
    have hstep : step s (Event.relMotion dx dy)
        = ((EvdevRCTEmuProcessRelMotion s dx dy).1,
            (EvdevRCTEmuProcessRelMotion s dx dy).2.map Downstream.posted) := rfl
    rw [hstep]
    unfold EvdevRCTEmuProcessRelMotion
    by_cases hst : s.state = EmulationState.EMRCT_PENDING
    · have hfl : (s.flags ||| EVDEV_RELATIVE_EVENTS) &&& EVDEV_ABSOLUTE_EVENTS ≠ 0 := by
        rw [flags_rel_keeps_abs]; exact hinv hst
      rw [if_neg (not_not.mpr hst)]
      dsimp only
      split
      · refine ⟨fun h => ?_, fun d hd => ?_⟩
        · rw [cancel_state] at h; exact EmulationState.noConfusion h
        · simp only [List.map_cons, List.map_nil, List.mem_singleton] at hd
          exact ⟨_, hd, by rw [post_absolute _ _ _ hfl]⟩
      · exact ⟨fun _ => hfl, fun d hd => by simp at hd⟩
    · rw [if_pos hst]
      exact ⟨fun h => absurd h hst, fun d hd => by simp at hd⟩

theorem motions_keep_absolute (ms : List Event) :
    ∀ s : emulateRCT, (∀ e ∈ ms, e.isMotion = true) →
      (s.state = EmulationState.EMRCT_PENDING → s.flags &&& EVDEV_ABSOLUTE_EVENTS ≠ 0) →
      ((run s ms).1.state = EmulationState.EMRCT_PENDING →
          (run s ms).1.flags &&& EVDEV_ABSOLUTE_EVENTS ≠ 0)
        ∧ ∀ d ∈ (run s ms).2, ∃ ev, d = Downstream.posted ev ∧ ev.is_absolute = Absolute := by
  induction ms with
  | nil => intro s _ hinv; exact ⟨hinv, fun d hd => by simp [run] at hd⟩
  | cons e rest ih =>
    intro s hm hinv
    obtain ⟨k1, k2⟩ := motion_keeps_absolute s e (hm e (List.mem_cons_self _ _)) hinv
    obtain ⟨r1, r2⟩ := ih (step s e).1 (fun x hx => hm x (List.mem_cons_of_mem _ hx)) k1
    simp only [run]
    refine ⟨r1, fun d hd => ?_⟩
    rcases List.mem_append.mp hd with h | h
    · exact k2 d h
    · exact r2 d h

/-- C17 (as amended): within one episode the posting mode changes at most once,
from Relative to Absolute.  In state Pending a relative motion sample that does
not cancel leaves the posting mode as it was; an absolute motion sample that
does not cancel sets it to Absolute, also when a relative sample came first;
and once the mode is Absolute, no later absolute or relative motion sample of
the episode changes it: after any sequence of motion samples the mode is still
Absolute while the state is Pending, and every event posted by those samples is
posted in absolute mode. -/
theorem posting_mode_within_episode (s : emulateRCT) (vals : ValuatorMask) (dx dy : Int)
    (ms : List Event) (hst : s.state = EmulationState.EMRCT_PENDING)
    (hm : ∀ e ∈ ms, e.isMotion = true) :
    ((EvdevRCTEmuProcessRelMotion s dx dy).1.state = EmulationState.EMRCT_PENDING →
        postingMode (EvdevRCTEmuProcessRelMotion s dx dy).1 = postingMode s)
      ∧ ((EvdevRCTEmuProcessAbsMotion s vals).1.state = EmulationState.EMRCT_PENDING →
          postingMode (EvdevRCTEmuProcessAbsMotion s vals).1 = Absolute)
      ∧ (postingMode s = Absolute →
          ((run s ms).1.state = EmulationState.EMRCT_PENDING →
              postingMode (run s ms).1 = Absolute)
            ∧ ∀ d ∈ (run s ms).2,
                ∃ ev, d = Downstream.posted ev ∧ ev.is_absolute = Absolute) := by
  refine ⟨?_, ?_, ?_⟩
  · unfold EvdevRCTEmuProcessRelMotion
    rw [if_neg (not_not.mpr hst)]
    dsimp only
    split
    · intro h; rw [cancel_state] at h; exact EmulationState.noConfusion h
    · intro _
      exact postingMode_congr _ _ (flags_rel_keeps_abs s.flags)
  · rw [absMotion_pending s vals hst]
    split
    · intro h; rw [cancel_state] at h; exact EmulationState.noConfusion h
    · intro _
      exact (postingMode_absolute_iff _).mpr (markAbsolute_flags s)
  · intro habs
    obtain ⟨r1, r2⟩ := motions_keep_absolute ms s hm
      (fun _ => (postingMode_absolute_iff s).mp habs)
    exact ⟨fun h => (postingMode_absolute_iff _).mpr (r1 h), r2⟩

/-- C17 (witness): the pending default configuration; a relative sample keeps
the mode Relative, an absolute sample sets it to Absolute; once the absolute
flag is set, a relative and an absolute sample leave the mode Absolute. -/
theorem posting_mode_within_episode_witness :
    postingMode (EvdevRCTEmuProcessRelMotion pendingDefault 1 0).1 = postingMode pendingDefault
      ∧ postingMode (EvdevRCTEmuProcessAbsMotion pendingDefault (sampleXY 0 0)).1 = Absolute
      ∧ postingMode (run { pendingDefault with flags := EVDEV_ABSOLUTE_EVENTS }
          [Event.relMotion 1 0, Event.absMotion (sampleXY 5 5)]).1 = Absolute :=
  have h := posting_mode_within_episode pendingDefault (sampleXY 0 0) 1 0
    [Event.relMotion 1 0] (by decide) (by
      intro e he
      simp only [List.mem_singleton] at he
      subst he; rfl)
  have k := posting_mode_within_episode { pendingDefault with flags := EVDEV_ABSOLUTE_EVENTS }
    (sampleXY 0 0) 1 0 [Event.relMotion 1 0, Event.absMotion (sampleXY 5 5)] (by decide) (by
      intro e he
      simp only [List.mem_cons, List.mem_singleton, List.mem_nil_iff, or_false] at he
      rcases he with he | he <;> subst he <;> rfl)
  ⟨h.1 (by decide), h.2.1 (by decide), (k.2.2 (by decide)).1 (by decide)⟩

/-- C17 (counterexample): in the pending default configuration a relative sample
(1,0) sets the relative flag, the posting mode being Relative; the absolute
sample (0,0) that follows in the same episode changes the posting mode to
Absolute. -/
theorem posting_mode_changes :
    (EvdevRCTEmuProcessRelMotion pendingDefault 1 0).1.state = EmulationState.EMRCT_PENDING
      ∧ (EvdevRCTEmuProcessRelMotion pendingDefault 1 0).1.flags &&& EVDEV_RELATIVE_EVENTS ≠ 0
      ∧ postingMode (EvdevRCTEmuProcessRelMotion pendingDefault 1 0).1 = Relative
      ∧ (EvdevRCTEmuProcessAbsMotion (EvdevRCTEmuProcessRelMotion pendingDefault 1 0).1
          (sampleXY 0 0)).1.state = EmulationState.EMRCT_PENDING
      ∧ postingMode (EvdevRCTEmuProcessAbsMotion
          (EvdevRCTEmuProcessRelMotion pendingDefault 1 0).1 (sampleXY 0 0)).1 = Absolute := by
  decide

/-! ## C18: configuration writes during an episode -/

/-- C19: when the state is not Pending, `EvdevRCTEmuProcessAbsMotion` only
refreshes the start position: each of the coordinates x and y becomes the
value of the sample if the axis is present and keeps its previous value
otherwise; every other field of the record (emulation state, accumulated delta,
flags, timer, configuration) is unchanged and no event is posted. -/
theorem abs_motion_outside_episode (s : emulateRCT) (vals : ValuatorMask)
    (hst : s.state ≠ EmulationState.EMRCT_PENDING) :
    EvdevRCTEmuProcessAbsMotion s vals =
      ({ s with startpos := ((vals 0).getD s.startpos.1, (vals 1).getD s.startpos.2) }, []) := by
  unfold EvdevRCTEmuProcessAbsMotion
  rw [if_pos hst]
  unfold valuator_mask_isset valuator_mask_get
  cases h0 : vals 0 <;> cases h1 : vals 1 <;> simp

/-- C19 (witness): in state Idle with start position (100,100), a sample with
only the x axis present (value 7) gives the start position (7,100). -/
theorem abs_motion_outside_episode_witness :
    EvdevRCTEmuProcessAbsMotion { defaultEnabled with startpos := (100, 100) }
        (fun axis => if axis = 0 then some 7 else none)
      = ({ defaultEnabled with startpos := (7, 100) }, []) :=
  abs_motion_outside_episode { defaultEnabled with startpos := (100, 100) }
    (fun axis => if axis = 0 then some 7 else none) (by decide)

/-! ## C20: a second press of button 1 -/

/-- C20: with emulation enabled, a press of button 1 while the state is Pending
or Emulating is a no-op: `EvdevRCTEmuFilterEvent` leaves the whole record
(emulation state, motion reference, timer and its deadline) as it was and posts
no event; it returns `false`. -/
theorem second_press_noop (s : emulateRCT) (hen : s.enabled ≠ 0)
    (hst : s.state = EmulationState.EMRCT_PENDING
      ∨ s.state = EmulationState.EMRCT_EMULATING) :
    EvdevRCTEmuFilterEvent s 1 true = (false, s, []) := by
  unfold EvdevRCTEmuFilterEvent
  rcases hst with h | h <;> simp [hen, h]

/-- C20 (witness): the pending default configuration, whose timer stays armed
with 1000 ms. -/
theorem second_press_noop_witness :
    EvdevRCTEmuFilterEvent pendingDefault 1 true = (false, pendingDefault, [])
      ∧ (EvdevRCTEmuFilterEvent pendingDefault 1 true).2.1.timer = OsTimer.armed 1000 :=
  have h := second_press_noop pendingDefault (by decide) (Or.inl (by decide))
  ⟨h, by rw [h]; rfl⟩

end EmuRightTouch
